import Mathlib

/-!
Verification of the go-trace streaming codec (github.com/cstockton/go-trace).

This file shallow-embeds the parts of the repository that the checked claims
touch: the unsigned LEB128 codec, the header codec, the event decoder and
encoder, the stream drivers, and the trace-state aggregator.  Bytes and
uint64 values are modelled as `Nat` (with explicit `% 2 ^ 64` where the Go
code can wrap), byte streams as `List Nat`, fallible code as `Except` or as
a result paired with the mutated state, and Go runtime panics (index out of
range) as a distinguished error / `Option.none`.

The repository contains several parallel translations of the same codec.
Where a claim cites a specific file, the embedding follows that file:
  * `encoding` translation A ("T1"): the first document of
    src/internal/tracegen/events.go together with src/unnamed/part_008
    (the `state` aggregator), src/encoding/encoder.go and the
    `Version`/schema tables of src/encoding/benchmark_test.go
    (`Latest = Version3`, `EvCount = 43`).
  * `encoding` translation B ("T2"): the second document of
    src/internal/tracegen/events.go (a `Decoder` that decodes into a
    caller-supplied `event.Event`) and src/unnamed/part_005 (its encoder),
    which both build on the `event` package.
  * the `event` package: src/event/version.go (`Latest = Version5`,
    49 schema entries), src/unnamed/part_000 (`Type`, `Event`,
    `EvCount = 45`) and src/unnamed/part_001 (`Trace`).
-/

-- Definitions -------------------------------------------------------------

deriving instance DecidableEq for Except

/-- Decoder-side errors.  Each constructor corresponds to one distinct error
expression in the Go source (several allocation-limit messages share the
`allocLimit` constructor; they all read "... exceeds allocation limit"). -/
inductive DErr where
  | eof
  | unexpectedEOF
  | headerPrefixMalformed
  | headerVersionMalformed
  | headerSuffixMalformed
  | invalidType
  | unsupportedVersion
  | ulebOverflow
  | allocLimit
  | nilEvent
  deriving DecidableEq, Repr

/-- A byte reader: the remaining bytes plus the running byte offset.  Models
the `offsetReader` (T1) and the reader embedded in the T2 `state`. -/
structure Rdr where
  data : List Nat
  off : Nat
  deriving DecidableEq, Repr

/-- Model of `ReadByte` on the buffered reader: one byte, offset advances.  (The Go
offset wrappers increment the offset even when the read fails; the offset is
never observed after a failed read, so the model leaves it unchanged.) -/
def Rdr.readByte (r : Rdr) : Except DErr (Nat × Rdr) :=
  match r.data with
  | [] => .error .eof
  | b :: rest => .ok (b, { data := rest, off := r.off + 1 })

/-- Model of `io.ReadFull`: read exactly `n` bytes; `io.EOF` when nothing could be
read, `io.ErrUnexpectedEOF` after a partial read.  A failed full read
consumes whatever was available, like the Go buffered reader does. -/
def Rdr.readFull (r : Rdr) (n : Nat) : Except DErr (List Nat × Rdr) :=
  if r.data.length < n then
    .error (if r.data.length == 0 then .eof else .unexpectedEOF)
  else
    .ok (r.data.take n, { data := r.data.drop n, off := r.off + n })

/-- Model of `encodeUleb` (src/encoding/encoder.go:225-232 and the identical
src/unnamed/part_005:232-239):

    for ; v >= 0x80; v >>= 7 { w.WriteByte(0x80 | byte(v)) }
    return w.WriteByte(byte(v))

The fuel argument only drives structural recursion; `v` itself is enough
fuel because `v >>> 7 < v` whenever `128 ≤ v`, so the `fuel = 0` fallback is
never reached from `encodeUleb`. -/
def encodeUlebAux : Nat → Nat → List Nat
  | fuel, v =>
    if v < 128 then [v % 256]
    else
      match fuel with
      | 0 => []
      | fuel + 1 => (128 ||| v % 256) :: encodeUlebAux fuel (v >>> 7)

/-- The byte list written by the Go `encodeUleb` for the uint64 value `v`. -/
def encodeUleb (v : Nat) : List Nat :=
  encodeUlebAux v v

/-- Model of `decodeUleb` loop body (src/internal/tracegen/events.go:976-995, both
documents carry the identical function):

    for i := 0; i < 10; i, y = i+1, y+7 {
      byt, err := r.ReadByte()
      ...
      v |= uint64(byt&0x7f) << y
      if byt&0x80 == 0 { return v, nil }
    }
    return 0, fmt.Errorf("uleb128 value overflowed")

`v` is a uint64, so the shifted group is truncated to 64 bits before the or
(`<< y` with `y ≥ 64` yields 0 in Go). -/
def decodeUlebAux : Nat → Nat → Nat → Rdr → Except DErr (Nat × Rdr)
  | 0, _, _, _ => .error .ulebOverflow
  | fuel + 1, v, y, r =>
    match r.readByte with
    | .error e => .error e
    | .ok (b, r') =>
      if b &&& 128 == 0 then .ok (v ||| (((b &&& 127) <<< y) % 2 ^ 64), r')
      else decodeUlebAux fuel (v ||| (((b &&& 127) <<< y) % 2 ^ 64)) (y + 7) r'

/-- Model of `decodeUleb`: read one unsigned LEB128 value (at most 10 bytes). -/
def decodeUleb (r : Rdr) : Except DErr (Nat × Rdr) :=
  decodeUlebAux 10 0 0 r

/-- Model of `maxMakeSize = 1e6` (both `encoding` translations). -/
def maxMakeSize : Nat := 1000000

/-- Model of `maxStackSize = 1e3` (src/unnamed/part_000 and benchmark_test.go). -/
def maxStackSize : Nat := 1000

/-- The length, in bytes, that the claim assigns to the LEB128 encoding of
`v`: the real-valued ceiling `⌈log2(v+1)/7⌉` clamped to `[1, 10]`.  Since
`⌈x/7⌉ = ⌈⌈x⌉/7⌉` for real `x`, the inner ceiling log is `Nat.clog 2`
and the outer ceiling division is `(· + 6) / 7`. -/
def ulebLenSpec (v : Nat) : Nat :=
  min 10 (max 1 ((Nat.clog 2 (v + 1) + 6) / 7))

/-- An event (`event.Event` of src/unnamed/part_000, and the structurally
identical lowercase `Event` of the `encoding` translations).  Only the
fields the claims observe are carried: type tag, decoded uint64 arguments,
raw data bytes, and the stream offset of the tag byte. -/
structure Ev where
  typ : Nat
  args : List Nat
  data : List Nat
  off : Nat
  deriving DecidableEq, Repr

/-- One schema-registry entry: display name, introducing revision, ordered
argument-name list (src/event/version.go `schema`). -/
structure Schema where
  name : String
  since : Nat
  args : List String
  deriving DecidableEq, Repr

/-- Model of `event.EvCount = 45` (src/unnamed/part_000). -/
def evCountEvent : Nat := 45

/-- Model of `event.EvString = 37`, `EvStack = 3`, `EvBatch = 1`, `EvFrequency = 2`,
`EvTimerGoroutine = 35`, `EvGCStart = 7`, `EvGoStart = 14`,
`EvGoUnblock = 21` (both enumerations agree on these tags). -/
def evString : Nat := 37

def evStack : Nat := 3

def evBatch : Nat := 1

def evFrequency : Nat := 2

def evTimerGoroutine : Nat := 35

def evGCStart : Nat := 7

def evGoStart : Nat := 14

def evGoUnblock : Nat := 21

/-- The `event` package schema table (src/event/version.go:158-229),
49 entries indexed by event type. -/
def schemasEvent : List Schema := [
  ⟨"None", 0, []⟩,
  ⟨"Batch", 1, ["ProcessorID", "Timestamp"]⟩,
  ⟨"Frequency", 1, ["Frequency"]⟩,
  ⟨"Stack", 1, ["StackID", "StackSize"]⟩,
  ⟨"Gomaxprocs", 1, ["Timestamp", "Gomaxprocs", "StackID"]⟩,
  ⟨"ProcStart", 1, ["Timestamp", "ThreadID"]⟩,
  ⟨"ProcStop", 1, ["Timestamp"]⟩,
  ⟨"GCStart", 1, ["Timestamp", "SequenceGC", "StackID"]⟩,
  ⟨"GCDone", 1, ["Timestamp"]⟩,
  ⟨"GCSTWStart", 1, ["Timestamp", "Kind"]⟩,
  ⟨"GCSTWDone", 1, ["Timestamp"]⟩,
  ⟨"GCSweepStart", 1, ["Timestamp", "StackID"]⟩,
  ⟨"GCSweepDone", 1, ["Timestamp"]⟩,
  ⟨"GoCreate", 1, ["Timestamp", "NewGoroutineID", "NewStackID", "StackID"]⟩,
  ⟨"GoStart", 1, ["Timestamp", "GoroutineID", "Sequence"]⟩,
  ⟨"GoEnd", 1, ["Timestamp"]⟩,
  ⟨"GoStop", 1, ["Timestamp", "StackID"]⟩,
  ⟨"GoSched", 1, ["Timestamp", "StackID"]⟩,
  ⟨"GoPreempt", 1, ["Timestamp", "StackID"]⟩,
  ⟨"GoSleep", 1, ["Timestamp", "StackID"]⟩,
  ⟨"GoBlock", 1, ["Timestamp", "StackID"]⟩,
  ⟨"GoUnblock", 1, ["Timestamp", "GoroutineID", "Sequence", "StackID"]⟩,
  ⟨"GoBlockSend", 1, ["Timestamp", "StackID"]⟩,
  ⟨"GoBlockRecv", 1, ["Timestamp", "StackID"]⟩,
  ⟨"GoBlockSelect", 1, ["Timestamp", "StackID"]⟩,
  ⟨"GoBlockSync", 1, ["Timestamp", "StackID"]⟩,
  ⟨"GoBlockCond", 1, ["Timestamp", "StackID"]⟩,
  ⟨"GoBlockNet", 1, ["Timestamp", "StackID"]⟩,
  ⟨"GoSysCall", 1, ["Timestamp", "StackID"]⟩,
  ⟨"GoSysExit", 1, ["Timestamp", "GoroutineID", "Sequence", "RealTimestamp"]⟩,
  ⟨"GoSysBlock", 1, ["Timestamp"]⟩,
  ⟨"GoWaiting", 1, ["Timestamp", "GoroutineID"]⟩,
  ⟨"GoInSyscall", 1, ["Timestamp", "GoroutineID"]⟩,
  ⟨"HeapAlloc", 1, ["Timestamp", "HeapAlloc"]⟩,
  ⟨"NextGC", 1, ["Timestamp", "NextGC"]⟩,
  ⟨"TimerGoroutine", 1, ["GoroutineID"]⟩,
  ⟨"FutileWakeup", 1, ["Timestamp"]⟩,
  ⟨"String", 2, ["StringID"]⟩,
  ⟨"GoStartLocal", 2, ["Timestamp", "GoroutineID"]⟩,
  ⟨"GoUnblockLocal", 2, ["Timestamp", "GoroutineID", "StackID"]⟩,
  ⟨"GoSysExitLocal", 2, ["Timestamp", "GoroutineID", "RealTimestamp"]⟩,
  ⟨"GoStartLabel", 3, ["Timestamp", "GoroutineID", "Sequence", "LabelStringID"]⟩,
  ⟨"GoBlockGC", 3, ["Timestamp", "StackID"]⟩,
  ⟨"EvGCMarkAssistStart", 4, ["Timestamp", "StackID"]⟩,
  ⟨"EvGCMarkAssistDone", 4, ["Timestamp"]⟩,
  ⟨"EvUserTaskCreate", 5, ["Timestamp", "TaskID", "TaskParentID", "StackID", "NameID"]⟩,
  ⟨"EvUserTaskEnd", 5, ["Timestamp", "TaskID", "StackID"]⟩,
  ⟨"EvUserRegion", 5, ["Timestamp", "TaskID", "TaskMode", "StackID", "NameID"]⟩,
  ⟨"EvUserLog", 5, ["Timestamp", "TaskID", "KeyID", "StackID", "ValueID"]⟩]

/-- Model of `schemas[t%EvCount]` in the `event` package (part_000 indexes the table
modulo `EvCount = 45` on every access). -/
def eventSchema (t : Nat) : Schema :=
  schemasEvent.getD (t % evCountEvent) ⟨"", 0, []⟩

/-- Model of `Type.Valid` (part_000:202-204): `EvNone < t && t < EvCount`. -/
def typValidEvent (t : Nat) : Bool :=
  0 < t && t < evCountEvent

/-- Model of `Type.Since` (part_000:212-214): `schemas[t%EvCount].Since`. -/
def typSinceEvent (t : Nat) : Nat :=
  (eventSchema t).since

/-- Model of `event.Latest = Version5` (src/event/version.go:37-41). -/
def eventLatest : Nat := 5

/-- Model of `Version.Valid` in the `event` package (src/event/version.go:79-81):
`Version1 <= v && v <= Version5`. -/
def versionValidEvent (v : Nat) : Bool :=
  1 ≤ v && v ≤ 5

/-- The T2 decoder `state` (events.go:729-734): header version, running
offset (carried inside `rdr`), and the version-1 inline-argument offset. -/
structure DState where
  ver : Nat
  argoff : Nat
  rdr : Rdr
  deriving DecidableEq, Repr

/-- Model of `decodeEventType` (events.go:884-897): read the tag byte, split it into
the low-6-bit type and the 2-bit argument-count code plus one. -/
def decodeEventType (s : DState) : Except DErr (Nat × Nat × DState) :=
  match s.rdr.readByte with
  | .error e => .error e
  | .ok (b, r') =>
    if typValidEvent (((b <<< 2) % 256) >>> 2) then
      .ok ((((b <<< 2) % 256) >>> 2), b >>> 6 + 1, { s with rdr := r' })
    else .error .invalidType

/-- Loop body of `decodeEventInline` (events.go:962-972): read exactly `n`
LEB128 values; an `io.EOF` mid-value surfaces as `io.ErrUnexpectedEOF`. -/
def decodeEventInlineLoop : Nat → DState → Except DErr (List Nat × DState)
  | 0, s => .ok ([], s)
  | n + 1, s =>
    match decodeUleb s.rdr with
    | .error .eof => .error .unexpectedEOF
    | .error e => .error e
    | .ok (v, r') =>
      match decodeEventInlineLoop n { s with rdr := r' } with
      | .error e => .error e
      | .ok (vs, s') => .ok (v :: vs, s')

/-- Model of `decodeEventInline` (events.go:952-973): `n` may not exceed
`maxMakeSize`; otherwise read `n` LEB128 values. -/
def decodeEventInline (n : Nat) (s : DState) : Except DErr (List Nat × DState) :=
  if maxMakeSize < n then .error .allocLimit
  else decodeEventInlineLoop n s

/-- Model of `decodeEventString` (events.go:901-924): one LEB128 byte length, capped
at `maxMakeSize`, then that many raw bytes. -/
def decodeEventString (s : DState) : Except DErr (List Nat × DState) :=
  match decodeUleb s.rdr with
  | .error .eof => .error .unexpectedEOF
  | .error e => .error e
  | .ok (size, r') =>
    if maxMakeSize < size then .error .allocLimit
    else
      match r'.readFull size with
      | .error e => .error e
      | .ok (bytes, r'') => .ok (bytes, { s with rdr := r'' })

/-- Loop of `decodeEventArgs` (events.go:940-947): read LEB128 values while
the offset is below `untilOff`.  The fuel is `untilOff - off` at entry;
every successful LEB128 read advances the offset by at least one byte, so
the `fuel = 0` fallback inside the loop guard is unreachable. -/
def decodeEventArgsLoop : Nat → Nat → DState → Except DErr (List Nat × DState)
  | fuel, untilOff, s =>
    if s.rdr.off < untilOff then
      match fuel with
      | 0 => .error .eof
      | fuel + 1 =>
        match decodeUleb s.rdr with
        | .error e => .error e
        | .ok (v, r') =>
          match decodeEventArgsLoop fuel untilOff { s with rdr := r' } with
          | .error e => .error e
          | .ok (vs, s') => .ok (v :: vs, s')
    else .ok ([], s)

/-- Model of `decodeEventArgs` (events.go:929-948): one LEB128 total byte length
(capped at `maxMakeSize`), then LEB128 values until the offset has advanced
by exactly that many bytes. -/
def decodeEventArgs (s : DState) : Except DErr (List Nat × DState) :=
  match decodeUleb s.rdr with
  | .error e => .error e
  | .ok (v, r') =>
    if maxMakeSize < v then .error .allocLimit
    else decodeEventArgsLoop v (r'.off + v) { s with rdr := r' }

/-- Model of `decodeEventData` (events.go:836-851): dispatch on String / inline /
length-prefixed.  The caller-supplied buffer's `data` is only overwritten on
the String path (capacity reuse never changes the decoded values). -/
def decodeEventData (s : DState) (evt : Ev) (args : Nat) :
    Except DErr (Ev × DState) :=
  if evt.typ == evString then
    match decodeEventInline 1 s with
    | .error e => .error e
    | .ok (as, s') =>
      match decodeEventString s' with
      | .error e => .error e
      | .ok (bytes, s'') => .ok ({ evt with args := as, data := bytes }, s'')
  else if args < 4 then
    match decodeEventInline (args + s.argoff) s with
    | .error e => .error e
    | .ok (as, s') => .ok ({ evt with args := as }, s')
  else
    match decodeEventArgs s with
    | .error e => .error e
    | .ok (as, s') => .ok ({ evt with args := as }, s')

/-- Model of `decodeEvent` (events.go:814-829): type byte, revision-support check,
event offset (one byte behind the cursor), then the body. -/
def decodeEvent (s : DState) (prior : Ev) : Except DErr (Ev × DState) :=
  match decodeEventType s with
  | .error e => .error e
  | .ok (typ, args, s') =>
    if typSinceEvent typ > s'.ver then .error .unsupportedVersion
    else decodeEventData s' { prior with typ := typ, off := s'.rdr.off - 1 } args

/-- Model of `headerLut = "trace\x00\x00\x00\x00"` (events.go:762). -/
def headerLut : List Nat := [116, 114, 97, 99, 101, 0, 0, 0, 0]

/-- Model of `decodeHeader` (events.go:766-810): 16 bytes; literal prefix `go `,
the version token, then the literal suffix.  The version switch stores the
revision before the suffix check, which resets it to 0 on mismatch.  A
short read surfaces as `io.ErrUnexpectedEOF`; the reader keeps whatever the
partial read consumed, which no caller observes because the session halts. -/
def decodeHeader (s : DState) : Option DErr × DState :=
  match s.rdr.readFull 16 with
  | .error _ => (some .unexpectedEOF, s)
  | .ok (b, r') =>
    if b.getD 0 0 ≠ 103 ∨ b.getD 1 0 ≠ 111 ∨ b.getD 2 0 ≠ 32 then
      (some .headerPrefixMalformed, { s with rdr := r' })
    else if b.getD 3 0 ≠ 49 ∨ b.getD 4 0 ≠ 46 ∨ b.getD 6 0 ≠ 32 then
      (some .headerVersionMalformed, { s with rdr := r' })
    else if b.getD 5 0 = 53 ∨ b.getD 5 0 = 55 ∨ b.getD 5 0 = 56 ∨
        b.getD 5 0 = 57 then
      if b.drop 7 ≠ headerLut then
        (some .headerSuffixMalformed, { s with rdr := r', ver := 0 })
      else
        let v : Nat :=
          if b.getD 5 0 = 53 then 1
          else if b.getD 5 0 = 55 then 2
          else if b.getD 5 0 = 56 then 3
          else 4
        (none, { s with rdr := r', ver := v })
    else (some .headerVersionMalformed, { s with rdr := r' })

/-- The T2 `Decoder`: a latched error plus the embedded state. -/
structure Dec where
  err : Option DErr
  st : DState
  deriving DecidableEq, Repr

/-- Model of `NewDecoder` over a byte stream. -/
def decNew (bytes : List Nat) : Dec :=
  ⟨none, ⟨0, 0, ⟨bytes, 0⟩⟩⟩

/-- Model of `Decoder.init` (events.go:717-727): read the header, halt on failure,
then set the version-1 argument offset. -/
def decInit (d : Dec) : Dec :=
  match decodeHeader d.st with
  | (some e, st') => { d with err := some e, st := st' }
  | (none, st') =>
    if st'.ver == 1 then { d with st := { st' with argoff := 1 } }
    else { d with st := st' }

/-- Model of `Decoder.Decode` (events.go:691-708).  `evtNil` models a nil event
buffer; `prior` is the caller-supplied buffer being decoded into.  Note the
order copied from the source: the nil check (which overwrites `d.err`), then
lazy init whenever `ver` is still 0, then the latched-error check. -/
def decDecode (d : Dec) (evtNil : Bool) (prior : Ev) : Except DErr Ev × Dec :=
  if evtNil then (.error .nilEvent, { d with err := some .nilEvent })
  else
    let d' := if d.st.ver == 0 then decInit d else d
    match d'.err with
    | some e => (.error e, d')
    | none =>
      match decodeEvent d'.st prior with
      | .error e => (.error e, { d' with err := some e })
      | .ok (evt, st') => (.ok evt, { d' with st := st' })

/-- Model of `Decoder.More` (events.go:658-669): false once an error is latched;
peeking an empty source halts with `io.EOF`. -/
def decMore (d : Dec) : Bool × Dec :=
  match d.err with
  | some _ => (false, d)
  | none =>
    if d.st.rdr.data.length == 0 then (false, { d with err := some .eof })
    else (true, d)

/-- Encoder-side errors, one constructor per distinct error expression in
part_005. -/
inductive EncErr where
  | headerVersionInvalid
  | invalidType
  | needOneArg
  | needFourArgs
  | concurrentUse
  deriving DecidableEq, Repr

/-- Model of `encodeHeader` (part_005:113-131): the canonical 16-byte header for
versions 1-4; any other version is `trace header version was invalid`. -/
def encodeHeader (v : Nat) : Except EncErr (List Nat) :=
  if v = 1 then
    .ok [103, 111, 32, 49, 46, 53, 32, 116, 114, 97, 99, 101, 0, 0, 0, 0]
  else if v = 2 then
    .ok [103, 111, 32, 49, 46, 55, 32, 116, 114, 97, 99, 101, 0, 0, 0, 0]
  else if v = 3 then
    .ok [103, 111, 32, 49, 46, 56, 32, 116, 114, 97, 99, 101, 0, 0, 0, 0]
  else if v = 4 then
    .ok [103, 111, 32, 49, 46, 57, 32, 116, 114, 97, 99, 101, 0, 0, 0, 0]
  else .error .headerVersionInvalid

/-- Model of `encodeEventInline` (part_005:159-174): tag byte packs the type with
`len(args)-1` (byte arithmetic), then the inline LEB128 arguments. -/
def encodeEventInline (evt : Ev) : Except EncErr (List Nat) :=
  if evt.args.length = 0 then .error .needOneArg
  else
    .ok ((evt.typ ||| (((evt.args.length - 1) % 256) <<< 6) % 256) ::
      (evt.args.map encodeUleb).flatten)

/-- Model of `encodeEventArgs` (part_005:177-198): arity code 3, one LEB128 body
length, then the back-to-back LEB128 arguments. -/
def encodeEventArgs (evt : Ev) : Except EncErr (List Nat) :=
  if evt.args.length < 4 then .error .needFourArgs
  else
    .ok ((evt.typ ||| (3 <<< 6) % 256) ::
      (encodeUleb ((evt.args.map encodeUleb).flatten).length ++
        (evt.args.map encodeUleb).flatten))

/-- Model of `encodeEventString` (part_005:201-229): bare type byte, the string
identifier `args[0]`, the byte length, then the raw data.  (The source also
fills a scratch buffer with all arguments but never writes it.) -/
def encodeEventString (evt : Ev) : Except EncErr (List Nat) :=
  if evt.args.length = 0 then .error .needOneArg
  else
    .ok (evt.typ :: (encodeUleb (evt.args.headD 0) ++
      encodeUleb evt.data.length ++ evt.data))

/-- Model of `encodeEvent` (part_005:134-156): validity check, then dispatch exactly
as the runtime packs events. -/
def encodeEvent (evt : Ev) : Except EncErr (List Nat) :=
  if ¬ typValidEvent evt.typ then .error .invalidType
  else if evt.typ == evString then encodeEventString evt
  else if evt.args.length < 4 then encodeEventInline evt
  else encodeEventArgs evt

/-- The part_005 `Encoder`: sink contents, latched error, and whether the
encode function has been installed (`e.encode != nil`).  A failed
`encodeInit` leaves `encode` nil, so later calls re-enter `init`, which then
returns early on the latched error. -/
structure Enc where
  out : List Nat
  err : Option EncErr
  inited : Bool
  deriving DecidableEq, Repr

/-- Model of `NewEncoder`. -/
def encNew : Enc := ⟨[], none, false⟩

/-- Model of `Encoder.init` (part_005:62-71): guarded by the latched error and the
concurrency flag, then `encodeInit` writes the header for `event.Latest`. -/
def encInit (e : Enc) : Enc :=
  if e.err.isSome then e
  else if e.inited then { e with err := some .concurrentUse }
  else
    match encodeHeader eventLatest with
    | .error er => { e with err := some er }
    | .ok hdr => { e with out := e.out ++ hdr, inited := true }

/-- Model of `Encoder.Emit` (part_005:44-58).  (The source wraps the error with the
current offset via `fmt.Errorf`; the model latches the unwrapped error.) -/
def encEmit (e : Enc) (evt : Ev) : Except EncErr Unit × Enc :=
  let e' := if ¬ e.inited then encInit e else e
  match e'.err with
  | some er => (.error er, e')
  | none =>
    match encodeEvent evt with
    | .error er => (.error er, { e' with err := some er })
    | .ok bytes => (.ok (), { e' with out := e'.out ++ bytes })

/-- Model of `Type.Arg` (part_000:223-230): the ordinal of the first argument name
equal to `name`, or absence. -/
def typeArg (t : Nat) (name : String) : Option Nat :=
  (eventSchema t).args.findIdx? (· == name)

/-- Model of `Event.Get` (part_000:281-286):

    if idx, has := e.Type.Arg(name); has && idx <= len(e.Args) {
      return e.Args[idx]
    }
    return 0

`none` models the Go runtime panic when `e.Args[idx]` indexes out of
range (which happens exactly when `idx = len(e.Args)` inside the taken
branch). -/
def eventGet (e : Ev) (name : String) : Option Nat :=
  match typeArg e.typ name with
  | some idx => if idx ≤ e.args.length then e.args.get? idx else some 0
  | none => some 0

/-- Trace/state-visit errors, one constructor per distinct error expression
(part_001 and part_008 use the same messages; the bad-frame-size default in
part_008 reuses the "may not be used as a stack" message, hence `notStack`). -/
inductive VErr where
  | unknownVersion
  | nilEvent
  | invalidType
  | schemaArity
  | notString
  | notStack
  | notFrequency
  | argCount
  | zeroStringId
  | zeroStackId
  | dupString
  | dupStack
  | stackSizeLimit
  | stackMismatch
  | freqNonPositive
  deriving DecidableEq, Repr

/-- One stack frame (`Frame`): program counter, function-name string id,
file-name string id, line.  The back-pointer to the owning trace only serves
string rendering and is not modelled. -/
structure FrameV where
  pc : Nat
  fn : Nat
  file : Nat
  line : Nat
  deriving DecidableEq, Repr

/-- Model of `event.Trace` (part_001:8-15): version, string and stack dictionaries
(modelled as association lists in insertion order; both assertions ever made
about them are key lookup and entry count), and the visit counter.  The
`stackVisitFn` field is the function `init` assigns from the version; the
dispatch is inlined at its use site. -/
structure Trace where
  version : Nat
  strings : List (Nat × List Nat)
  stacksTab : List (Nat × List FrameV)
  count : Nat
  deriving DecidableEq, Repr

/-- Model of `NewTrace`/`init` result for a valid version: empty dictionaries. -/
def newTrace (v : Nat) : Trace := ⟨v, [], [], 0⟩

/-- Model of `validateArgCount` (part_001:99-112 and the identical part_008:171-184);
`maxA = -1` means unbounded. -/
def validateArgCount (evt : Ev) (minA : Nat) (maxA : Int) : Option VErr :=
  if evt.args.length < minA then some .argCount
  else if maxA ≠ -1 ∧ (evt.args.length : Int) > maxA then some .argCount
  else none

/-- Model of `Trace.addString` (part_001:253-259): reject duplicate identifiers,
otherwise insert. -/
def traceAddString (tr : Trace) (id : Nat) (str : List Nat) :
    Option VErr × Trace :=
  if (tr.strings.lookup id).isSome then (some .dupString, tr)
  else (none, { tr with strings := tr.strings ++ [(id, str)] })

/-- Model of `Trace.addStack` (part_001:245-251). -/
def traceAddStack (tr : Trace) (id : Nat) (stk : List FrameV) :
    Option VErr × Trace :=
  if (tr.stacksTab.lookup id).isSome then (some .dupStack, tr)
  else (none, { tr with stacksTab := tr.stacksTab ++ [(id, stk)] })

/-- Model of `Trace.visitString` (part_001:115-134): type check, exactly one
argument, nonzero identifier, then insert `id → bytes(data)`. -/
def traceVisitString (tr : Trace) (evt : Ev) : Option VErr × Trace :=
  if evt.typ ≠ evString then (some .notString, tr)
  else
    match validateArgCount evt 1 1 with
    | some e => (some e, tr)
    | none =>
      if evt.args.headD 0 = 0 then (some .zeroStringId, tr)
      else traceAddString tr (evt.args.headD 0) evt.data

/-- Model of `Trace.visitStackSize1` (part_001:180-193): frame width 1 (PC only). -/
def traceVisitStackSize1 (tr : Trace) (evt : Ev) : Option VErr × Trace :=
  if evt.args.length - 2 ≠ evt.args.getD 1 0 * 1 then (some .stackMismatch, tr)
  else
    traceAddStack tr (evt.args.getD 0 0)
      ((List.range (evt.args.getD 1 0)).map fun i =>
        ⟨evt.args.getD (2 + i * 1) 0, 0, 0, 0⟩)

/-- Model of `Trace.visitStackSize4` (part_001:196-216): frame width 4
(PC, func id, file id, line). -/
def traceVisitStackSize4 (tr : Trace) (evt : Ev) : Option VErr × Trace :=
  if evt.args.length - 2 ≠ evt.args.getD 1 0 * 4 then (some .stackMismatch, tr)
  else
    traceAddStack tr (evt.args.getD 0 0)
      ((List.range (evt.args.getD 1 0)).map fun i =>
        ⟨evt.args.getD (2 + i * 4) 0, evt.args.getD (2 + i * 4 + 1) 0,
          evt.args.getD (2 + i * 4 + 2) 0,
          (evt.args.getD (2 + i * 4 + 3) 0)⟩)

/-- Model of `Trace.visitStack` (part_001:141-158): type check, arity at least 2,
nonzero identifier, declared size capped at `maxStackSize`, then the
frame-width builder `init` installed (`Version > Version1` selects width 4;
the model assumes an initialized trace, i.e. a valid version). -/
def traceVisitStack (tr : Trace) (evt : Ev) : Option VErr × Trace :=
  if evt.typ ≠ evStack then (some .notStack, tr)
  else
    match validateArgCount evt 2 (-1) with
    | some e => (some e, tr)
    | none =>
      if evt.args.getD 0 0 = 0 then (some .zeroStackId, tr)
      else if maxStackSize < evt.args.getD 1 0 then (some .stackSizeLimit, tr)
      else if tr.version > 1 then traceVisitStackSize4 tr evt
      else traceVisitStackSize1 tr evt

/-- Model of `Trace.Visit` (part_001:62-95).  `init` re-runs while `Count == 0` and
fails on an invalid version; then the counter is incremented *before* the
nil-event, type-validity and schema-arity checks; then `String` and `Stack`
events mutate the dictionaries (the `Frequency` case body is commented out
in the source). -/
def traceVisit (tr : Trace) (evt : Option Ev) : Option VErr × Trace :=
  if tr.count = 0 ∧ ¬ versionValidEvent tr.version then (some .unknownVersion, tr)
  else
    let tr' : Trace := { tr with count := tr.count + 1 }
    match evt with
    | none => (some .nilEvent, tr')
    | some e =>
      if ¬ typValidEvent e.typ then (some .invalidType, tr')
      else if e.args.length < (eventSchema e.typ).args.length then
        (some .schemaArity, tr')
      else if e.typ = evFrequency then (none, tr')
      else if e.typ = evString then traceVisitString tr' e
      else if e.typ = evStack then traceVisitStack tr' e
      else (none, tr')

/-- Model of `EvCount = 43` in the T1 `encoding` package. -/
def evCountT1 : Nat := 43

/-- The T1 schema table (src/encoding/benchmark_test.go:250-294), 43 entries;
it differs from the `event` table in stopping at `GoBlockGC` and in the
`GCScanStart`/`GCScanDone` entries. -/
def schemasT1 : List Schema := [
  ⟨"None", 0, []⟩,
  ⟨"Batch", 1, ["ProcessorID", "Timestamp"]⟩,
  ⟨"Frequency", 1, ["Frequency"]⟩,
  ⟨"Stack", 1, ["StackID", "StackSize"]⟩,
  ⟨"Gomaxprocs", 1, ["Timestamp", "Gomaxprocs", "StackID"]⟩,
  ⟨"ProcStart", 1, ["Timestamp", "ThreadID"]⟩,
  ⟨"ProcStop", 1, ["Timestamp"]⟩,
  ⟨"GCStart", 1, ["Timestamp", "SequenceGC", "StackID"]⟩,
  ⟨"GCDone", 1, ["Timestamp"]⟩,
  ⟨"GCScanStart", 1, ["Timestamp"]⟩,
  ⟨"GCScanDone", 1, ["Timestamp"]⟩,
  ⟨"GCSweepStart", 1, ["Timestamp", "StackID"]⟩,
  ⟨"GCSweepDone", 1, ["Timestamp"]⟩,
  ⟨"GoCreate", 1, ["Timestamp", "NewGoroutineID", "NewStackID", "StackID"]⟩,
  ⟨"GoStart", 1, ["Timestamp", "GoroutineID", "Sequence"]⟩,
  ⟨"GoEnd", 1, ["Timestamp"]⟩,
  ⟨"GoStop", 1, ["Timestamp", "StackID"]⟩,
  ⟨"GoSched", 1, ["Timestamp", "StackID"]⟩,
  ⟨"GoPreempt", 1, ["Timestamp", "StackID"]⟩,
  ⟨"GoSleep", 1, ["Timestamp", "StackID"]⟩,
  ⟨"GoBlock", 1, ["Timestamp", "StackID"]⟩,
  ⟨"GoUnblock", 1, ["Timestamp", "GoroutineID", "Sequence", "StackID"]⟩,
  ⟨"GoBlockSend", 1, ["Timestamp", "StackID"]⟩,
  ⟨"GoBlockRecv", 1, ["Timestamp", "StackID"]⟩,
  ⟨"GoBlockSelect", 1, ["Timestamp", "StackID"]⟩,
  ⟨"GoBlockSync", 1, ["Timestamp", "StackID"]⟩,
  ⟨"GoBlockCond", 1, ["Timestamp", "StackID"]⟩,
  ⟨"GoBlockNet", 1, ["Timestamp", "StackID"]⟩,
  ⟨"GoSysCall", 1, ["Timestamp", "StackID"]⟩,
  ⟨"GoSysExit", 1, ["Timestamp", "GoroutineID", "Sequence", "RealTimestamp"]⟩,
  ⟨"GoSysBlock", 1, ["Timestamp"]⟩,
  ⟨"GoWaiting", 1, ["Timestamp", "GoroutineID"]⟩,
  ⟨"GoInSyscall", 1, ["Timestamp", "GoroutineID"]⟩,
  ⟨"HeapAlloc", 1, ["Timestamp", "HeapAlloc"]⟩,
  ⟨"NextGC", 1, ["Timestamp", "NextGC"]⟩,
  ⟨"TimerGoroutine", 1, ["GoroutineID"]⟩,
  ⟨"FutileWakeup", 1, ["Timestamp"]⟩,
  ⟨"String", 2, ["StringID"]⟩,
  ⟨"GoStartLocal", 2, ["Timestamp", "GoroutineID"]⟩,
  ⟨"GoUnblockLocal", 2, ["Timestamp", "GoroutineID", "StackID"]⟩,
  ⟨"GoSysExitLocal", 2, ["Timestamp", "GoroutineID", "RealTimestamp"]⟩,
  ⟨"GoStartLabel", 3, ["Timestamp", "GoroutineID", "Sequence", "LabelStringID"]⟩,
  ⟨"GoBlockGC", 3, ["Timestamp", "StackID"]⟩]

/-- Schema lookup in T1 (always applied to a validity-checked type, so the
`% EvCount` of the accessor methods is the identity at every use). -/
def t1Schema (t : Nat) : Schema :=
  schemasT1.getD (t % evCountT1) ⟨"", 0, []⟩

/-- T1 `Type.Valid`: `EvNone < t && t < EvCount` with `EvCount = 43`. -/
def t1TypValid (t : Nat) : Bool :=
  0 < t && t < evCountT1

/-- T1 `Type.Since`. -/
def t1Since (t : Nat) : Nat :=
  (t1Schema t).since

/-- The part_008 `state` (T1): version, visit counter, frame size,
version-1 argument offset, the recorded timer frequency, and the two
dictionaries.  (The unused look-behind fields `lastSeq/lastP/lastG/lastTs`
and `state` are omitted.  Go stores `1e9/float64(freq)` in `freq`; no claim
observes the stored value, so the model records the raw argument.) -/
structure St1 where
  ver : Nat
  count : Nat
  frameSize : Nat
  argOffset : Nat
  freq : Nat
  strings : List (Nat × List Nat)
  stacksTab : List (Nat × List FrameV)
  deriving DecidableEq, Repr

/-- Model of `newState` (part_008:23-30): `ver = Latest` (T1 `Latest = Version3`),
frame size 4, empty dictionaries. -/
def newStateT1 : St1 := ⟨3, 0, 4, 0, 0, [], []⟩

/-- Model of `decodeInitVersion` for `Version1` (doc 1 of events.go:186-203):
`s.argOffset, s.frameSize = 1, 1` and `s.ver = Version1`. -/
def stateV1 : St1 := { newStateT1 with ver := 1, argOffset := 1, frameSize := 1 }

/-- Model of `state.addString` (part_008:210-216). -/
def st1AddString (s : St1) (id : Nat) (str : List Nat) : Option VErr × St1 :=
  if (s.strings.lookup id).isSome then (some .dupString, s)
  else (none, { s with strings := s.strings ++ [(id, str)] })

/-- Model of `state.addStack` (part_008:202-208). -/
def st1AddStack (s : St1) (id : Nat) (stk : List FrameV) : Option VErr × St1 :=
  if (s.stacksTab.lookup id).isSome then (some .dupStack, s)
  else (none, { s with stacksTab := s.stacksTab ++ [(id, stk)] })

/-- Model of `state.visitFrequency` (part_008:64-80): exactly one argument, which
must be positive as a float64 (a uint64 converts to a nonpositive float64
exactly when it is zero). -/
def st1VisitFrequency (s : St1) (evt : Ev) : Option VErr × St1 :=
  if evt.typ ≠ evFrequency then (some .notFrequency, s)
  else
    match validateArgCount evt 1 1 with
    | some e => (some e, s)
    | none =>
      if evt.args.headD 0 = 0 then (some .freqNonPositive, s)
      else (none, { s with freq := evt.args.headD 0 })

/-- Model of `state.visitString` (part_008:83-102). -/
def st1VisitString (s : St1) (evt : Ev) : Option VErr × St1 :=
  if evt.typ ≠ evString then (some .notString, s)
  else
    match validateArgCount evt 1 1 with
    | some e => (some e, s)
    | none =>
      if evt.args.headD 0 = 0 then (some .zeroStringId, s)
      else st1AddString s (evt.args.headD 0) evt.data

/-- Model of `state.visitStack` (part_008:109-151): type check, arity at least 2,
frame builder selected by `frameSize` (1 or 4; anything else reuses the
"may not be used as a stack" error), nonzero id, size cap, frame-count
consistency, then insert the built stack. -/
def st1VisitStack (s : St1) (evt : Ev) : Option VErr × St1 :=
  if evt.typ ≠ evStack then (some .notStack, s)
  else
    match validateArgCount evt 2 (-1) with
    | some e => (some e, s)
    | none =>
      if s.frameSize ≠ 1 ∧ s.frameSize ≠ 4 then (some .notStack, s)
      else if evt.args.getD 0 0 = 0 then (some .zeroStackId, s)
      else if maxStackSize < evt.args.getD 1 0 then (some .stackSizeLimit, s)
      else if evt.args.length - 2 ≠ evt.args.getD 1 0 * s.frameSize then
        (some .stackMismatch, s)
      else
        st1AddStack s (evt.args.getD 0 0)
          ((List.range (evt.args.getD 1 0)).map fun i =>
            if s.frameSize = 1 then ⟨evt.args.getD (2 + i * 1) 0, 0, 0, 0⟩
            else ⟨evt.args.getD (2 + i * 4) 0, evt.args.getD (2 + i * 4 + 1) 0,
              evt.args.getD (2 + i * 4 + 2) 0, evt.args.getD (2 + i * 4 + 3) 0⟩)

/-- Model of `state.visit` (part_008:34-61): type validity, schema arity, dispatch,
and `count` incremented exactly when no error occurred. -/
def st1Visit (s : St1) (evt : Ev) : Option VErr × St1 :=
  if ¬ t1TypValid evt.typ then (some .invalidType, s)
  else if evt.args.length < (t1Schema evt.typ).args.length then
    (some .schemaArity, s)
  else
    match
      (if evt.typ = evFrequency then st1VisitFrequency s evt
       else if evt.typ = evString then st1VisitString s evt
       else if evt.typ = evStack then st1VisitStack s evt
       else (none, s)) with
    | (none, s') => (none, { s' with count := s'.count + 1 })
    | (some e, s') => (some e, s')

/-- T1 `decodeEventType` (events.go:489-501): identical byte split, but
validity against the T1 enumeration (`EvCount = 43`). -/
def decodeEventTypeT1 (r : Rdr) : Except DErr (Nat × Nat × Rdr) :=
  match r.readByte with
  | .error e => .error e
  | .ok (b, r') =>
    if t1TypValid (((b <<< 2) % 256) >>> 2) then
      .ok ((((b <<< 2) % 256) >>> 2), b >>> 6 + 1, r')
    else .error .invalidType

/-- Loop of T1 `decodeEventInline` (events.go:548-562); unlike T2 it does
not remap `io.EOF`. -/
def decodeEventInlineT1Loop : Nat → Rdr → Except DErr (List Nat × Rdr)
  | 0, r => .ok ([], r)
  | n + 1, r =>
    match decodeUleb r with
    | .error e => .error e
    | .ok (v, r') =>
      match decodeEventInlineT1Loop n r' with
      | .error e => .error e
      | .ok (vs, r'') => .ok (v :: vs, r'')

/-- T1 `decodeEventInline` (events.go:548-562). -/
def decodeEventInlineT1 (n : Nat) (r : Rdr) : Except DErr (List Nat × Rdr) :=
  if maxMakeSize < n then .error .allocLimit
  else decodeEventInlineT1Loop n r

/-- T1 `decodeEventData` (events.go:505-521): the string payload as raw
bytes — a LEB128 byte length capped at `maxMakeSize`, then that many
bytes. -/
def decodeEventDataT1 (r : Rdr) : Except DErr (List Nat × Rdr) :=
  match decodeUleb r with
  | .error e => .error e
  | .ok (size, r') =>
    if maxMakeSize < size then .error .allocLimit
    else r'.readFull size

/-- Loop of T1 `decodeEventArgs` (events.go:536-543); the fuel is
`untilOff - off` at entry and every LEB128 read advances the offset, so the
`fuel = 0` case inside the guard is unreachable. -/
def decodeEventArgsT1Loop : Nat → Nat → Rdr → Except DErr (List Nat × Rdr)
  | fuel, untilOff, r =>
    if r.off < untilOff then
      match fuel with
      | 0 => .error .eof
      | fuel + 1 =>
        match decodeUleb r with
        | .error e => .error e
        | .ok (v, r') =>
          match decodeEventArgsT1Loop fuel untilOff r' with
          | .error e => .error e
          | .ok (vs, r'') => .ok (v :: vs, r'')
    else .ok ([], r)

/-- T1 `decodeEventArgs` (events.go:526-544). -/
def decodeEventArgsT1 (r : Rdr) : Except DErr (List Nat × Rdr) :=
  match decodeUleb r with
  | .error e => .error e
  | .ok (v, r') =>
    if maxMakeSize < v then .error .allocLimit
    else decodeEventArgsT1Loop v (r'.off + v) r'

/-- T1 `decodeEvent` (events.go:423-456): type byte, revision-support check
against the session version, event offset, then String / inline /
length-prefixed dispatch (inline reads `args + s.argOffset` values). -/
def decodeEventT1 (r : Rdr) (s : St1) : Except DErr (Ev × Rdr) :=
  match decodeEventTypeT1 r with
  | .error e => .error e
  | .ok (typ, args, r') =>
    if t1Since typ > s.ver then .error .unsupportedVersion
    else if typ = evString then
      match decodeEventInlineT1 1 r' with
      | .error e => .error e
      | .ok (as, r'') =>
        match decodeEventDataT1 r'' with
        | .error e => .error e
        | .ok (bytes, r''') => .ok (⟨typ, as, bytes, r'.off - 1⟩, r''')
    else if args < 4 then
      match decodeEventInlineT1 (args + s.argOffset) r' with
      | .error e => .error e
      | .ok (as, r'') => .ok (⟨typ, as, [], r'.off - 1⟩, r'')
    else
      match decodeEventArgsT1 r' with
      | .error e => .error e
      | .ok (as, r'') => .ok (⟨typ, as, [], r'.off - 1⟩, r'')

/-- The revision-1 argument rewrite inside `decodeEventVersion1`
(events.go:285-354).  `ts` is the zero placeholder (`var ts uint64`, the
timestamp reconstruction is left as a TODO in the source).  `none` models a
Go index-out-of-range panic.  Note the `EvBatch` arm: the source reads

    e.args[0], e.args[2] = a[0], a[2]

with `a` aliasing `e.args`, so both cells are assigned their own current
values and the argument vector is left unchanged. -/
def normalizeV1Args (typ : Nat) (args : List Nat) : Option (List Nat) :=
  if typ = evStack then some args
  else if typ = evBatch then
    match args.get? 0, args.get? 2 with
    | some a0, some a2 => some ((args.set 0 a0).set 2 a2)
    | _, _ => none
  else if typ = evFrequency ∨ typ = evTimerGoroutine then
    if args.length < 1 then none else some (args.take 1)
  else if typ = evGCStart then
    match args.get? 2 with
    | some a2 => some (((args.set 0 0).set 1 0).set 2 a2)
    | none => none
  else if typ = evGoStart then
    match args.get? 2 with
    | some a2 => some (((args.set 0 0).set 1 a2).set 2 0)
    | none => none
  else if typ = evGoUnblock then
    match args.get? 2, args.get? 3 with
    | some a2, some a3 => some ((((args.set 0 0).set 1 a2).set 2 0).set 3 a3)
    | _, _ => none
  else
    if args.length < 2 then none else some ((args.drop 1).set 0 0)

/-- Result of `decodeEventVersion1`: success, a decode error, an error from
`state.visit`, or a Go panic inside the normalizer. -/
inductive V1Result where
  | ok (e : Ev) (s : St1) (r : Rdr)
  | decodeErr (e : DErr)
  | visitErr (e : VErr)
  | panicked
  deriving DecidableEq, Repr

/-- Model of `decodeEventVersion1` (events.go:275-360): decode, rewrite the argument
vector to the latest shape, then hand the event to `state.visit`. -/
def decodeEventVersion1 (r : Rdr) (s : St1) : V1Result :=
  match decodeEventT1 r s with
  | .error e => .decodeErr e
  | .ok (e, r') =>
    match normalizeV1Args e.typ e.args with
    | none => .panicked
    | some args' =>
      match st1Visit s { e with args := args' } with
      | (some err, _) => .visitErr err
      | (none, s') => .ok { e with args := args' } s' r'

/-- Driving loop for C6: visit a list of `(id, bytes)` pairs as `String`
events (each decoded `String` event carries exactly its identifier in
`args`), stopping at the first error as the decoder session would. -/
def visitStrings (tr : Trace) : List (Nat × List Nat) → Option VErr × Trace
  | [] => (none, tr)
  | (id, str) :: rest =>
    match traceVisitString tr ⟨evString, [id], str, 0⟩ with
    | (some e, tr') => (some e, tr')
    | (none, tr') => visitStrings tr' rest

-- Theorems ----------------------------------------------------------------

theorem encodeUlebAux_lt (fuel v : Nat) (h : v < 128) :
    encodeUlebAux fuel v = [v % 256] := by
  cases fuel <;> simp [encodeUlebAux, h]

theorem encodeUlebAux_ge (fuel v : Nat) (h : ¬ v < 128) :
    encodeUlebAux (fuel + 1) v =
      (128 ||| v % 256) :: encodeUlebAux fuel (v >>> 7) := by
  simp [encodeUlebAux, h]

theorem encodeUleb_shiftRight (v : Nat) : v >>> 7 = v / 128 := by
  rw [Nat.shiftRight_eq_div_pow]

theorem encodeUlebAux_congr (f₁ : Nat) : ∀ f₂ v, v ≤ f₁ → v ≤ f₂ →
    encodeUlebAux f₁ v = encodeUlebAux f₂ v := by
  induction f₁ with
  | zero =>
    intro f₂ v hv₁ _
    have hv : v = 0 := by omega
    subst hv
    rw [encodeUlebAux_lt _ _ (by norm_num), encodeUlebAux_lt _ _ (by norm_num)]
  | succ f₁ ih =>
    intro f₂ v hv₁ hv₂
    by_cases h : v < 128
    · rw [encodeUlebAux_lt _ _ h, encodeUlebAux_lt _ _ h]
    · obtain ⟨f₂', rfl⟩ : ∃ k, f₂ = k + 1 := ⟨f₂ - 1, by omega⟩
      have hdiv : v >>> 7 < v := by
        rw [encodeUleb_shiftRight]
        exact Nat.div_lt_self (by omega) (by norm_num)
      rw [encodeUlebAux_ge _ _ h, encodeUlebAux_ge _ _ h,
        ih f₂' (v >>> 7) (by omega) (by omega)]

theorem encodeUleb_lt (v : Nat) (h : v < 128) : encodeUleb v = [v] := by
  rw [encodeUleb, encodeUlebAux_lt _ _ h, Nat.mod_eq_of_lt (by omega)]

theorem or_mod_byte (v : Nat) : 128 ||| v % 256 = 128 + v % 128 := by
  have h256 : v % 256 % 128 = v % 128 :=
    Nat.mod_mod_of_dvd v (by norm_num : (128 : Nat) ∣ 256)
  have hq : (v % 256) / 128 < 2 := by
    have : v % 256 < 256 := Nat.mod_lt _ (by norm_num)
    omega
  have hr : v % 128 < 128 := Nat.mod_lt _ (by norm_num)
  have hsplit : v % 256 = v % 128 + 128 * ((v % 256) / 128) := by
    conv_lhs => rw [← Nat.mod_add_div (v % 256) 128, h256]
  have h2 : (128 : Nat) + v % 128 = 128 ||| v % 128 := by
    have := Nat.mul_add_lt_is_or (i := 7) (b := v % 128) (by simpa using hr) 1
    simpa using this
  have hq01 : (v % 256) / 128 = 0 ∨ (v % 256) / 128 = 1 := by omega
  rcases hq01 with hq0 | hq1
  · have hv256 : v % 256 = v % 128 := by omega
    rw [hv256, ← h2]
  · have hv256 : v % 256 = 128 + v % 128 := by omega
    rw [hv256, h2, ← Nat.or_assoc, Nat.or_self, ← h2]

theorem encodeUleb_ge (v : Nat) (h : 128 ≤ v) :
    encodeUleb v = (128 + v % 128) :: encodeUleb (v >>> 7) := by
  have hne : ¬ v < 128 := Nat.not_lt.mpr h
  obtain ⟨k, hk⟩ : ∃ k, v = k + 1 := ⟨v - 1, by omega⟩
  have hdiv : v >>> 7 < v := by
    rw [encodeUleb_shiftRight]
    exact Nat.div_lt_self (by omega) (by norm_num)
  conv_lhs => rw [encodeUleb, hk, encodeUlebAux_ge k (k + 1) (hk ▸ hne), ← hk]
  rw [or_mod_byte,
    encodeUlebAux_congr k (v >>> 7) (v >>> 7) (by omega) (le_refl _)]
  rfl

theorem encodeUleb_length_pos (v : Nat) : 1 ≤ (encodeUleb v).length := by
  by_cases h : v < 128
  · rw [encodeUleb_lt v h]
    simp
  · rw [encodeUleb_ge v (by omega)]
    simp

theorem encodeUleb_length_le : ∀ k v, 1 ≤ k → v < 128 ^ k →
    (encodeUleb v).length ≤ k := by
  intro k
  induction k with
  | zero => omega
  | succ k ih =>
    intro v _ hv
    by_cases h : v < 128
    · rw [encodeUleb_lt v h]
      simp
    · rw [encodeUleb_ge v (by omega)]
      by_cases hk : k = 0
      · subst hk
        simp at hv
        omega
      · have : v >>> 7 < 128 ^ k := by
          rw [encodeUleb_shiftRight]
          rw [pow_succ, mul_comm] at hv
          exact Nat.div_lt_of_lt_mul hv
        have := ih (v >>> 7) (by omega) this
        simpa using this

theorem encodeUleb_length_ge : ∀ k v, 128 ^ k ≤ v →
    k + 1 ≤ (encodeUleb v).length := by
  intro k
  induction k with
  | zero => exact fun v _ => encodeUleb_length_pos v
  | succ k ih =>
    intro v hv
    have h128 : 128 ≤ v :=
      le_trans (Nat.le_self_pow (by omega) 128) hv
    rw [encodeUleb_ge v h128]
    have : 128 ^ k ≤ v >>> 7 := by
      rw [encodeUleb_shiftRight, Nat.le_div_iff_mul_le (by norm_num)]
      calc 128 ^ k * 128 = 128 ^ (k + 1) := by ring
        _ ≤ v := hv
    have := ih (v >>> 7) this
    simpa using this

theorem decodeUlebAux_encode : ∀ fuel v acc y rest (r : Rdr),
    (encodeUleb v).length ≤ fuel →
    2 ^ y * v + acc < 2 ^ 64 →
    acc < 2 ^ y →
    r.data = encodeUleb v ++ rest →
    decodeUlebAux fuel acc y r =
      .ok (2 ^ y * v + acc,
        ⟨rest, r.off + (encodeUleb v).length⟩) := by
  intro fuel
  induction fuel with
  | zero =>
    intro v acc y rest r hfuel _ _ _
    have := encodeUleb_length_pos v
    omega
  | succ fuel ih =>
    intro v acc y rest r hfuel hbound hacc hdata
    by_cases h : v < 128
    · rw [encodeUleb_lt v h] at hfuel hdata ⊢
      have hread : r.readByte = .ok (v, ⟨rest, r.off + 1⟩) := by
        unfold Rdr.readByte
        rw [hdata]
        rfl
      have hand127 : v &&& 127 = v := by
        have h7 : v &&& 2 ^ 7 - 1 = v % 2 ^ 7 := Nat.and_pow_two_sub_one_eq_mod v 7
        norm_num at h7
        rw [h7, Nat.mod_eq_of_lt h]
      have hand128 : v &&& 128 = 0 := by
        have h7 : v.testBit 7 = false := Nat.testBit_lt_two_pow (by norm_num [h])
        have h2 := Nat.and_two_pow v 7
        rw [h7] at h2
        norm_num at h2
        exact h2
      have hshift : (v <<< y) % 2 ^ 64 = 2 ^ y * v := by
        rw [Nat.shiftLeft_eq, Nat.mod_eq_of_lt (by rw [mul_comm]; omega),
          mul_comm]
      have hor : acc ||| 2 ^ y * v = 2 ^ y * v + acc := by
        rw [Nat.or_comm, ← Nat.mul_add_lt_is_or hacc]
      simp only [decodeUlebAux, hread, hand127, hand128, hshift, hor]
      norm_num
    · have h128 : 128 ≤ v := by omega
      rw [encodeUleb_ge v h128] at hfuel hdata ⊢
      have hread : r.readByte = .ok (128 + v % 128,
          ⟨encodeUleb (v >>> 7) ++ rest, r.off + 1⟩) := by
        unfold Rdr.readByte
        rw [hdata]
        rfl
      have hmod : v % 128 < 128 := Nat.mod_lt _ (by norm_num)
      have hand127 : (128 + v % 128) &&& 127 = v % 128 := by
        have h7 : (128 + v % 128) &&& 2 ^ 7 - 1 = (128 + v % 128) % 2 ^ 7 :=
          Nat.and_pow_two_sub_one_eq_mod (128 + v % 128) 7
        norm_num at h7
        exact h7
      have hand128 : (128 + v % 128) &&& 128 = 128 := by
        have hlow : (v % 128).testBit 7 = false :=
          Nat.testBit_lt_two_pow (by norm_num [hmod])
        have h7 : (128 + v % 128).testBit 7 = true := by
          have h2 := Nat.testBit_two_pow_add_eq (v % 128) 7
          norm_num at h2 ⊢
          rw [h2, hlow]
          rfl
        have h2 := Nat.and_two_pow (128 + v % 128) 7
        rw [h7] at h2
        norm_num at h2
        exact h2
      have hvsplit : v = 128 * (v >>> 7) + v % 128 := by
        rw [encodeUleb_shiftRight]
        omega
      have hmul : 2 ^ y * (v % 128) ≤ 2 ^ y * v :=
        Nat.mul_le_mul_left _ (Nat.mod_le _ _)
      have hshift : ((v % 128) <<< y) % 2 ^ 64 = 2 ^ y * (v % 128) := by
        rw [Nat.shiftLeft_eq, Nat.mod_eq_of_lt (by rw [mul_comm]; omega),
          mul_comm]
      have hor : acc ||| 2 ^ y * (v % 128) = 2 ^ y * (v % 128) + acc := by
        rw [Nat.or_comm, ← Nat.mul_add_lt_is_or hacc]
    /- the continuation-bit branch recurses -/
      have hval : 2 ^ (y + 7) * (v >>> 7) + (2 ^ y * (v % 128) + acc) =
          2 ^ y * v + acc := by
        conv_rhs => rw [hvsplit]
        ring_nf
      have hrec := ih (v >>> 7) (2 ^ y * (v % 128) + acc) (y + 7)
        rest ⟨encodeUleb (v >>> 7) ++ rest, r.off + 1⟩
        (by simpa using hfuel)
        (by omega)
        (by
          have h1 : 2 ^ y * (v % 128) ≤ 2 ^ y * 127 :=
            Nat.mul_le_mul_left _ (by omega)
          have h2 : 2 ^ (y + 7) = 2 ^ y * 128 := by ring
          omega)
        rfl
      simp only [decodeUlebAux, hread, hand127, hand128, hshift, hor]
      norm_num
      rw [hrec, hval]
      simp only [List.length_cons]
      norm_num
      omega

theorem encodeUleb_length_le_ten (v : Nat) (hv : v < 2 ^ 64) :
    (encodeUleb v).length ≤ 10 := by
  apply encodeUleb_length_le 10 v (by norm_num)
  calc v < 2 ^ 64 := hv
    _ ≤ 128 ^ 10 := by norm_num

theorem decodeUleb_encode (v : Nat) (hv : v < 2 ^ 64) (rest : List Nat)
    (r : Rdr) (hdata : r.data = encodeUleb v ++ rest) :
    decodeUleb r = .ok (v, ⟨rest, r.off + (encodeUleb v).length⟩) := by
  have := decodeUlebAux_encode 10 v 0 0 rest r
    (encodeUleb_length_le_ten v hv) (by simpa using hv) (by norm_num) hdata
  simpa [decodeUleb] using this

theorem encodeUleb_length_spec (v : Nat) (hv : v < 2 ^ 64) :
    (encodeUleb v).length = ulebLenSpec v := by
  by_cases hv0 : v = 0
  · subst hv0
    rw [encodeUleb_lt 0 (by norm_num)]
    have : Nat.clog 2 1 = 0 := Nat.clog_one_right 2
    simp [ulebLenSpec, this]
  · set k := Nat.log 128 v with hk
    have h1 : 128 ^ k ≤ v := Nat.pow_log_le_self 128 hv0
    have h2 : v < 128 ^ (k + 1) := Nat.lt_pow_succ_log_self (by norm_num) v
    have hlen : (encodeUleb v).length = k + 1 :=
      le_antisymm (encodeUleb_length_le (k + 1) v (by omega) h2)
        (encodeUleb_length_ge k v h1)
    have hklt : k < 10 := by
      have : Nat.log 128 v < 10 := Nat.log_lt_of_lt_pow hv0 (by calc
        v < 2 ^ 64 := hv
        _ ≤ 128 ^ 10 := by norm_num)
      omega
    have hc1 : 7 * k < Nat.clog 2 (v + 1) := by
      rw [← Nat.pow_lt_iff_lt_clog (by norm_num)]
      calc 2 ^ (7 * k) = 128 ^ k := by
            rw [show (128 : Nat) = 2 ^ 7 by norm_num, ← pow_mul]
        _ < v + 1 := by omega
    have hc2 : Nat.clog 2 (v + 1) ≤ 7 * k + 7 := by
      rw [← Nat.le_pow_iff_clog_le (by norm_num)]
      calc v + 1 ≤ 128 ^ (k + 1) := by omega
        _ = 2 ^ (7 * k + 7) := by
            rw [show (128 : Nat) = 2 ^ 7 by norm_num, ← pow_mul]
            ring_nf
    rw [hlen, ulebLenSpec]
    omega

/-- C2.  For every `v` in `[0, 2^64 - 1]`, `decodeUleb` applied to
`encodeUleb v` (followed by any remaining bytes) returns `v` and consumes
exactly the encoding, and the encoded length equals `⌈log2(v+1)/7⌉`
clamped to `[1, 10]` (stated via `Nat.clog` and ceiling division, which
agree with the real-valued formula). -/
theorem c2_uleb_roundtrip_and_length (v : Nat) (hv : v < 2 ^ 64)
    (rest : List Nat) (r : Rdr) (hdata : r.data = encodeUleb v ++ rest) :
    decodeUleb r = .ok (v, ⟨rest, r.off + (encodeUleb v).length⟩) ∧
      (encodeUleb v).length = ulebLenSpec v :=
  ⟨decodeUleb_encode v hv rest r hdata, encodeUleb_length_spec v hv⟩

/-- Witness for C2 at `v = 300`: the encoding is `[0xac, 0x02]`, decoding
returns 300, and the length matches the spec formula. -/
theorem c2_uleb_roundtrip_and_length_witness :
    decodeUleb ⟨encodeUleb 300 ++ [7], 5⟩ =
        .ok (300, ⟨[7], 5 + (encodeUleb 300).length⟩) ∧
      (encodeUleb 300).length = ulebLenSpec 300 :=
  c2_uleb_roundtrip_and_length 300 (by norm_num) [7] ⟨encodeUleb 300 ++ [7], 5⟩ rfl

/-- C8.  The revision-1 `Batch` rewrite is a self-assignment no-op: decoding
the version-1 `Batch` wire bytes `[0x41, 1, 2, 3]` (tag `EvBatch | 1<<6`,
then pid=1, seq=2, ticks=3) yields the argument vector `[1, 2, 3]`
unchanged — the middle sequence is not dropped — so position 1, which is the
`Timestamp` slot of the latest `Batch` schema, holds the decoded sequence 2
rather than the decoded timestamp 3.  This contradicts the claim (and the
comment right above the assignment in the source, which says the 1.8 shape
is `[pid, ticks]`). -/
theorem c8_batch_normalization_noop :
    decodeEventVersion1 ⟨[65, 1, 2, 3], 0⟩ stateV1 =
      .ok ⟨evBatch, [1, 2, 3], [], 0⟩ { stateV1 with count := 1 } ⟨[], 4⟩ ∧
    typeArg evBatch "Timestamp" = some 1 ∧
    [1, 2, 3].get? 1 = some 2 := by decide

/-- C10.  `Event.Get` is not total: `Type.Arg` places `StringID` at ordinal
0 for a `String` event, and on an event whose `Args` is empty the guard
`idx <= len(e.Args)` admits `idx = 0 = len(e.Args)`, so `e.Args[idx]`
indexes out of range (modelled as `none`) instead of returning 0 as the
claim (and the function's own doc comment) promises. -/
theorem c10_event_get_out_of_range :
    typeArg evString "StringID" = some 0 ∧
    eventGet ⟨evString, [], [], 0⟩ "StringID" = none := by decide

/-- C4.  `event.Latest` is `Version5`, but the part_005 `encodeHeader` only
handles versions 1-4, so the encoder's first `Emit` does not write the
16-byte header followed by the event: it writes nothing, latches
`trace header version was invalid`, and every later `Emit` returns the same
error.  (Evaluated at the valid one-argument `ProcStop` event.) -/
theorem c4_first_emit_writes_nothing :
    eventLatest = 5 ∧
    encodeHeader eventLatest = .error .headerVersionInvalid ∧
    encEmit encNew ⟨6, [128], [], 0⟩ =
      (.error .headerVersionInvalid, ⟨[], some .headerVersionInvalid, false⟩) ∧
    encEmit (encEmit encNew ⟨6, [128], [], 0⟩).2 ⟨6, [128], [], 0⟩ =
      (.error .headerVersionInvalid, ⟨[], some .headerVersionInvalid, false⟩) := by
  decide

/-- C5.  The first error is not always latched unchanged: on a source of 16
garbage bytes the first `Decode` fails with the header-prefix error, but
because the header never parsed (`ver` is still 0) the second `Decode`
re-runs `init`, reads the now-empty source, and overwrites the latched error
with `io.ErrUnexpectedEOF` — a different error, contradicting the claim (and
`Decode`'s own doc comment).  `More` does return false after the first
error. -/
theorem c5_latched_error_overwritten :
    (decDecode (decNew (List.replicate 16 120)) false ⟨0, [], [], 0⟩).1 =
        .error .headerPrefixMalformed ∧
    (decMore
      (decDecode (decNew (List.replicate 16 120)) false ⟨0, [], [], 0⟩).2).1 =
        false ∧
    (decDecode
      (decDecode (decNew (List.replicate 16 120)) false ⟨0, [], [], 0⟩).2
      false ⟨0, [], [], 0⟩).1 = .error .unexpectedEOF ∧
    DErr.headerPrefixMalformed ≠ DErr.unexpectedEOF := by decide

/-- C3 counterexample.  The 16-byte header carrying the token `1.11`
(`"go 1.11 trace\x00\x00\x00"`) does not decode to revision 5: byte 6 is
`'1'` rather than the `' '` the decoder insists on, so it fails with the
version-malformed error and the state's version stays 0. -/
theorem c3_header_111_rejected :
    decodeHeader ⟨0, 0,
        ⟨[103, 111, 32, 49, 46, 49, 49, 32, 116, 114, 97, 99, 101, 0, 0, 0],
          0⟩⟩ =
      (some .headerVersionMalformed, ⟨0, 0, ⟨[], 16⟩⟩) := by decide

/-- Model of `io.ReadFull` of exactly 16 bytes on a 16-byte source. -/
theorem readFull16_explicit
    (b0 b1 b2 b3 b4 b5 b6 b7 b8 b9 b10 b11 b12 b13 b14 b15 off : Nat) :
    Rdr.readFull
        ⟨[b0, b1, b2, b3, b4, b5, b6, b7, b8, b9, b10, b11, b12, b13, b14, b15],
          off⟩ 16 =
      .ok ([b0, b1, b2, b3, b4, b5, b6, b7, b8, b9, b10, b11, b12, b13, b14, b15],
        ⟨[], off + 16⟩) := rfl

/-- C3 (amended).  For every 16-byte input, the header decoder maps the
version tokens `1.5`, `1.7`, `1.8`, `1.9` to revisions 1-4; a deviation in
the literal `go ` prefix fails with the prefix-malformed error; any other
version token — including `1.11`, whose second `1` occupies the byte the
decoder requires to be a space — fails with the version-malformed error; and
a deviation in the literal `trace\x00\x00\x00\x00` suffix fails with the
suffix-malformed error (resetting the stored version). -/
theorem c3_header_decoder_amended
    (b0 b1 b2 b3 b4 b5 b6 b7 b8 b9 b10 b11 b12 b13 b14 b15 : Nat) :
    (¬ (b0 = 103 ∧ b1 = 111 ∧ b2 = 32) →
      decodeHeader ⟨0, 0,
          ⟨[b0, b1, b2, b3, b4, b5, b6, b7, b8, b9, b10, b11, b12, b13, b14,
            b15], 0⟩⟩ =
        (some .headerPrefixMalformed, ⟨0, 0, ⟨[], 16⟩⟩)) ∧
    ((b0 = 103 ∧ b1 = 111 ∧ b2 = 32) →
      ¬ (b3 = 49 ∧ b4 = 46 ∧ b6 = 32 ∧
          (b5 = 53 ∨ b5 = 55 ∨ b5 = 56 ∨ b5 = 57)) →
      decodeHeader ⟨0, 0,
          ⟨[b0, b1, b2, b3, b4, b5, b6, b7, b8, b9, b10, b11, b12, b13, b14,
            b15], 0⟩⟩ =
        (some .headerVersionMalformed, ⟨0, 0, ⟨[], 16⟩⟩)) ∧
    ((b0 = 103 ∧ b1 = 111 ∧ b2 = 32) → (b3 = 49 ∧ b4 = 46 ∧ b6 = 32) →
      (b5 = 53 ∨ b5 = 55 ∨ b5 = 56 ∨ b5 = 57) →
      [b7, b8, b9, b10, b11, b12, b13, b14, b15] ≠ headerLut →
      decodeHeader ⟨0, 0,
          ⟨[b0, b1, b2, b3, b4, b5, b6, b7, b8, b9, b10, b11, b12, b13, b14,
            b15], 0⟩⟩ =
        (some .headerSuffixMalformed, ⟨0, 0, ⟨[], 16⟩⟩)) ∧
    ((b0 = 103 ∧ b1 = 111 ∧ b2 = 32) → (b3 = 49 ∧ b4 = 46 ∧ b6 = 32) →
      (b5 = 53 ∨ b5 = 55 ∨ b5 = 56 ∨ b5 = 57) →
      [b7, b8, b9, b10, b11, b12, b13, b14, b15] = headerLut →
      decodeHeader ⟨0, 0,
          ⟨[b0, b1, b2, b3, b4, b5, b6, b7, b8, b9, b10, b11, b12, b13, b14,
            b15], 0⟩⟩ =
        (none,
          ⟨(if b5 = 53 then 1 else if b5 = 55 then 2 else if b5 = 56 then 3
              else 4), 0, ⟨[], 16⟩⟩)) := by
  have g0 : [b0, b1, b2, b3, b4, b5, b6, b7, b8, b9, b10, b11, b12, b13, b14,
      b15].getD 0 0 = b0 := rfl
  have g1 : [b0, b1, b2, b3, b4, b5, b6, b7, b8, b9, b10, b11, b12, b13, b14,
      b15].getD 1 0 = b1 := rfl
  have g2 : [b0, b1, b2, b3, b4, b5, b6, b7, b8, b9, b10, b11, b12, b13, b14,
      b15].getD 2 0 = b2 := rfl
  have g3 : [b0, b1, b2, b3, b4, b5, b6, b7, b8, b9, b10, b11, b12, b13, b14,
      b15].getD 3 0 = b3 := rfl
  have g4 : [b0, b1, b2, b3, b4, b5, b6, b7, b8, b9, b10, b11, b12, b13, b14,
      b15].getD 4 0 = b4 := rfl
  have g5 : [b0, b1, b2, b3, b4, b5, b6, b7, b8, b9, b10, b11, b12, b13, b14,
      b15].getD 5 0 = b5 := rfl
  have g6 : [b0, b1, b2, b3, b4, b5, b6, b7, b8, b9, b10, b11, b12, b13, b14,
      b15].getD 6 0 = b6 := rfl
  have gd : [b0, b1, b2, b3, b4, b5, b6, b7, b8, b9, b10, b11, b12, b13, b14,
      b15].drop 7 = [b7, b8, b9, b10, b11, b12, b13, b14, b15] := rfl
  refine ⟨?_, ?_, ?_, ?_⟩
  · intro h
    simp only [decodeHeader, readFull16_explicit, g0, g1, g2]
    rw [if_pos (by tauto)]
  · intro h h2
    simp only [decodeHeader, readFull16_explicit, g0, g1, g2, g3, g4, g5, g6]
    rw [if_neg (by tauto)]
    by_cases hb : b3 = 49 ∧ b4 = 46 ∧ b6 = 32
    · rw [if_neg (by tauto), if_neg (by tauto)]
    · rw [if_pos (by tauto)]
  · intro h hv htok hsuf
    simp only [decodeHeader, readFull16_explicit, g0, g1, g2, g3, g4, g5, g6,
      gd]
    rw [if_neg (by tauto), if_neg (by tauto), if_pos htok, if_pos hsuf]
  · intro h hv htok hsuf
    simp only [decodeHeader, readFull16_explicit, g0, g1, g2, g3, g4, g5, g6,
      gd]
    rw [if_neg (by tauto), if_neg (by tauto), if_pos htok,
      if_neg (by simp [hsuf])]

/-- Witness for the amended C3 at the canonical `1.9` header: it decodes
with no error to revision 4. -/
theorem c3_header_decoder_amended_witness :
    decodeHeader ⟨0, 0,
        ⟨[103, 111, 32, 49, 46, 57, 32, 116, 114, 97, 99, 101, 0, 0, 0, 0],
          0⟩⟩ =
      (none, ⟨4, 0, ⟨[], 16⟩⟩) := by
  have h := (c3_header_decoder_amended 103 111 32 49 46 57 32 116 114 97 99
    101 0 0 0 0).2.2.2 (by norm_num) (by norm_num) (by norm_num) rfl
  simpa using h

theorem st1AddString_count (s : St1) (id : Nat) (str : List Nat) :
    (st1AddString s id str).2.count = s.count := by
  unfold st1AddString
  split_ifs <;> rfl

theorem st1AddStack_count (s : St1) (id : Nat) (stk : List FrameV) :
    (st1AddStack s id stk).2.count = s.count := by
  unfold st1AddStack
  split_ifs <;> rfl

theorem st1VisitFrequency_count (s : St1) (evt : Ev) :
    (st1VisitFrequency s evt).2.count = s.count := by
  unfold st1VisitFrequency
  split
  · rfl
  · split
    · rfl
    · split <;> rfl

theorem st1VisitString_count (s : St1) (evt : Ev) :
    (st1VisitString s evt).2.count = s.count := by
  unfold st1VisitString
  split
  · rfl
  · split
    · rfl
    · split
      · rfl
      · exact st1AddString_count _ _ _

theorem st1VisitStack_count (s : St1) (evt : Ev) :
    (st1VisitStack s evt).2.count = s.count := by
  unfold st1VisitStack
  split
  · rfl
  · split
    · rfl
    · split
      · rfl
      · split
        · rfl
        · split
          · rfl
          · split
            · rfl
            · exact st1AddStack_count _ _ _

theorem st1Dispatch_count (s : St1) (evt : Ev) :
    ((if evt.typ = evFrequency then st1VisitFrequency s evt
      else if evt.typ = evString then st1VisitString s evt
      else if evt.typ = evStack then st1VisitStack s evt
      else (none, s)).2).count = s.count := by
  split_ifs with h1 h2 h3
  · exact st1VisitFrequency_count _ _
  · exact st1VisitString_count _ _
  · exact st1VisitStack_count _ _
  · rfl

theorem traceAddString_count (tr : Trace) (id : Nat) (str : List Nat) :
    (traceAddString tr id str).2.count = tr.count := by
  unfold traceAddString
  split_ifs <;> rfl

theorem traceAddStack_count (tr : Trace) (id : Nat) (stk : List FrameV) :
    (traceAddStack tr id stk).2.count = tr.count := by
  unfold traceAddStack
  split_ifs <;> rfl

theorem traceVisitString_count (tr : Trace) (evt : Ev) :
    (traceVisitString tr evt).2.count = tr.count := by
  unfold traceVisitString
  split
  · rfl
  · split
    · rfl
    · split
      · rfl
      · exact traceAddString_count _ _ _

theorem traceVisitStackSize1_count (tr : Trace) (evt : Ev) :
    (traceVisitStackSize1 tr evt).2.count = tr.count := by
  unfold traceVisitStackSize1
  split
  · rfl
  · exact traceAddStack_count _ _ _

theorem traceVisitStackSize4_count (tr : Trace) (evt : Ev) :
    (traceVisitStackSize4 tr evt).2.count = tr.count := by
  unfold traceVisitStackSize4
  split
  · rfl
  · exact traceAddStack_count _ _ _

theorem traceVisitStack_count (tr : Trace) (evt : Ev) :
    (traceVisitStack tr evt).2.count = tr.count := by
  unfold traceVisitStack
  split
  · rfl
  · split
    · rfl
    · split
      · rfl
      · split
        · rfl
        · split
          · exact traceVisitStackSize4_count _ _
          · exact traceVisitStackSize1_count _ _

/-- C9 counterexample.  A failing visit does not leave the count unchanged
in `Trace.Visit`: visiting a nil event on a fresh valid-version trace
returns the nil-event error, yet the count has become 1. -/
theorem c9_trace_visit_counts_failure :
    traceVisit (newTrace 2) none = (some .nilEvent, ⟨2, [], [], 1⟩) := by
  decide

/-- C9 (amended).  The two trace-state translations disagree.  In the
part_008 `state.visit`, `count` is incremented exactly when the visit
returns without error, and an erroring visit leaves it unchanged — as the
claim states.  In the part_001 `Trace.Visit`, however, `count` is
incremented on every call that passes initialization (any call on a
valid-version trace), including visits that then fail the nil-event, type
or arity validation. -/
theorem c9_count_semantics_amended :
    (∀ (s : St1) (evt : Ev),
      ((st1Visit s evt).1 = none → (st1Visit s evt).2.count = s.count + 1) ∧
      ((st1Visit s evt).1 ≠ none → (st1Visit s evt).2.count = s.count)) ∧
    (∀ (tr : Trace) (evt : Option Ev), versionValidEvent tr.version →
      (traceVisit tr evt).2.count = tr.count + 1) := by
  constructor
  · intro s evt
    have hd := st1Dispatch_count s evt
    rcases hD : (if evt.typ = evFrequency then st1VisitFrequency s evt
        else if evt.typ = evString then st1VisitString s evt
        else if evt.typ = evStack then st1VisitStack s evt
        else (none, s)) with ⟨err, s'⟩
    rw [hD] at hd
    simp only [] at hd
    unfold st1Visit
    rw [hD]
    split_ifs with h1 h2
    all_goals
      first
      | exact ⟨fun h => by simp at h, fun _ => rfl⟩
      | (cases err with
         | none =>
           exact ⟨fun _ => by simp [hd], fun hne => by simp at hne⟩
         | some e =>
           exact ⟨fun hno => by simp at hno, fun _ => by simp [hd]⟩)
  · intro tr evt hver
    unfold traceVisit
    rw [if_neg (by simp [hver])]
    cases evt with
    | none => rfl
    | some e =>
      simp only
      split_ifs with h1 h2 h3 h4 h5
      all_goals
        first
        | rfl
        | rw [traceVisitString_count]
        | rw [traceVisitStack_count]

/-- Witness for the amended C9: a successful `state.visit` of a `Frequency`
event increments the count from 0 to 1; a failing `state.visit` of an
invalid-type event leaves it 0; `Trace.Visit` of a nil event on a fresh
revision-2 trace increments the count even though it errors. -/
theorem c9_count_semantics_amended_witness :
    (st1Visit stateV1 ⟨2, [5], [], 0⟩).2.count = stateV1.count + 1 ∧
    (st1Visit stateV1 ⟨0, [5], [], 0⟩).2.count = stateV1.count ∧
    (traceVisit (newTrace 2) none).2.count = (newTrace 2).count + 1 := by
  refine ⟨(c9_count_semantics_amended.1 stateV1 ⟨2, [5], [], 0⟩).1 (by decide),
    (c9_count_semantics_amended.1 stateV1 ⟨0, [5], [], 0⟩).2 (by decide),
    c9_count_semantics_amended.2 (newTrace 2) none (by decide)⟩

theorem lookup_append_of_none (l₁ l₂ : List (Nat × List Nat)) (k : Nat)
    (h : l₁.lookup k = none) : (l₁ ++ l₂).lookup k = l₂.lookup k := by
  induction l₁ with
  | nil => simp
  | cons p l ih =>
    rcases p with ⟨k', v⟩
    by_cases hk : k == k'
    · simp [List.lookup, hk] at h
    · simp only [List.cons_append, List.lookup, hk] at h ⊢
      exact ih h

theorem lookup_mem_of_nodup : ∀ (pairs : List (Nat × List Nat)),
    (pairs.map Prod.fst).Nodup → ∀ p ∈ pairs, pairs.lookup p.1 = some p.2 := by
  intro pairs
  induction pairs with
  | nil => simp
  | cons q rest ih =>
    intro hnodup p hp
    rcases q with ⟨k, v⟩
    rcases List.mem_cons.mp hp with hp1 | hp2
    · subst hp1
      simp [List.lookup]
    · have hnd := hnodup
      rw [List.map_cons, List.nodup_cons] at hnd
      have hne : ¬ (p.1 == k) := by
        simp only [beq_iff_eq]
        intro hEq
        apply hnd.1
        rw [← hEq]
        exact List.mem_map.mpr ⟨p, hp2, rfl⟩
      simp only [List.lookup, hne]
      exact ih hnd.2 p hp2

theorem visitStrings_fresh : ∀ (pairs : List (Nat × List Nat)) (tr : Trace),
    (pairs.map Prod.fst).Nodup →
    (∀ p ∈ pairs, p.1 ≠ 0) →
    (∀ p ∈ pairs, tr.strings.lookup p.1 = none) →
    visitStrings tr pairs = (none, { tr with strings := tr.strings ++ pairs }) := by
  intro pairs
  induction pairs with
  | nil =>
    intro tr _ _ _
    simp [visitStrings]
  | cons p rest ih =>
    intro tr hnodup hpos hfresh
    rcases p with ⟨id, str⟩
    have hid : id ≠ 0 := hpos (id, str) (by simp)
    have hlk : tr.strings.lookup id = none := hfresh (id, str) (by simp)
    have hstep : traceVisitString tr ⟨evString, [id], str, 0⟩ =
        (none, { tr with strings := tr.strings ++ [(id, str)] }) := by
      simp [traceVisitString, validateArgCount, traceAddString, hid, hlk]
    have hnd := hnodup
    rw [List.map_cons, List.nodup_cons] at hnd
    have hrec := ih { tr with strings := tr.strings ++ [(id, str)] }
      hnd.2
      (fun q hq => hpos q (by simp [hq]))
      (fun q hq => by
        rw [lookup_append_of_none _ _ _ (hfresh q (by simp [hq]))]
        have hne : ¬ (q.1 == id) := by
          simp only [beq_iff_eq]
          intro hEq
          apply hnd.1
          rw [← hEq]
          exact List.mem_map.mpr ⟨q, hq, rfl⟩
        simp [List.lookup, hne])
    rw [visitStrings]
    simp only [hstep]
    rw [hrec]
    simp [List.append_assoc]

/-- C6.  Starting from a fresh trace, visiting `n` `String` events with
distinct positive identifiers (each event carrying its identifier as its
single argument) succeeds, leaves exactly `n` entries in the string
dictionary, and looking up each identifier returns the bytes supplied with
its event.  A `String` event with identifier 0, or with an identifier
already present, fails and returns the trace unchanged. -/
theorem c6_string_dictionary (pairs : List (Nat × List Nat)) (v : Nat)
    (hnodup : (pairs.map Prod.fst).Nodup)
    (hpos : ∀ p ∈ pairs, p.1 ≠ 0) :
    ((visitStrings (newTrace v) pairs).1 = none ∧
      (visitStrings (newTrace v) pairs).2.strings.length = pairs.length ∧
      ∀ p ∈ pairs,
        (visitStrings (newTrace v) pairs).2.strings.lookup p.1 = some p.2) ∧
    (∀ (tr : Trace) (evt : Ev), evt.typ = evString → evt.args = [0] →
      traceVisitString tr evt = (some .zeroStringId, tr)) ∧
    (∀ (tr : Trace) (evt : Ev) (id : Nat), evt.typ = evString →
      evt.args = [id] → id ≠ 0 → (tr.strings.lookup id).isSome →
      traceVisitString tr evt = (some .dupString, tr)) := by
  refine ⟨?_, ?_, ?_⟩
  · have h := visitStrings_fresh pairs (newTrace v) hnodup hpos
      (fun p _ => by simp [newTrace])
    rw [h]
    refine ⟨rfl, by simp [newTrace], fun p hp => ?_⟩
    simpa [newTrace] using lookup_mem_of_nodup pairs hnodup p hp
  · intro tr evt htyp hargs
    simp [traceVisitString, validateArgCount, htyp, hargs]
  · intro tr evt id htyp hargs hid hmem
    simp [traceVisitString, validateArgCount, traceAddString, htyp, hargs,
      hid, hmem]

/-- Witness for C6 at two concrete strings and a concrete zero-identifier
failure. -/
theorem c6_string_dictionary_witness :
    (visitStrings (newTrace 4) [(1, [102]), (2, [])]).1 = none ∧
    (visitStrings (newTrace 4) [(1, [102]), (2, [])]).2.strings.length = 2 ∧
    traceVisitString (newTrace 4) ⟨evString, [0], [5], 0⟩ =
      (some .zeroStringId, newTrace 4) := by
  have h := c6_string_dictionary [(1, [102]), (2, [])] 4 (by decide) (by decide)
  exact ⟨h.1.1, h.1.2.1, h.2.1 (newTrace 4) ⟨evString, [0], [5], 0⟩ rfl rfl⟩

theorem decodeUlebAux_no_alloc : ∀ (fuel v y : Nat) (r : Rdr),
    decodeUlebAux fuel v y r ≠ .error .allocLimit := by
  intro fuel
  induction fuel with
  | zero => intro v y r; simp [decodeUlebAux]
  | succ fuel ih =>
    intro v y r
    unfold decodeUlebAux
    match hb : r.readByte with
    | .error e =>
      unfold Rdr.readByte at hb
      rcases hr : r.data with _ | ⟨b, rest⟩ <;> rw [hr] at hb
      · simp only [] at hb
        cases hb
        simp
      · simp at hb
    | .ok (b, r') =>
      simp only []
      split_ifs
      · simp
      · exact ih _ _ _

theorem decodeUleb_no_alloc (r : Rdr) : decodeUleb r ≠ .error .allocLimit :=
  decodeUlebAux_no_alloc 10 0 0 r

theorem decodeEventArgsLoop_no_alloc : ∀ (fuel untilOff : Nat) (s : DState),
    decodeEventArgsLoop fuel untilOff s ≠ .error .allocLimit := by
  intro fuel
  induction fuel with
  | zero =>
    intro untilOff s
    unfold decodeEventArgsLoop
    split_ifs <;> simp
  | succ fuel ih =>
    intro untilOff s
    unfold decodeEventArgsLoop
    split_ifs with h
    · match hu : decodeUleb s.rdr with
      | .error e =>
        simp only []
        intro hEq
        cases hEq
        exact decodeUleb_no_alloc s.rdr hu
      | .ok (v, r') =>
        simp only []
        match hl : decodeEventArgsLoop fuel untilOff { s with rdr := r' } with
        | .error e =>
          intro hEq
          cases hEq
          exact ih untilOff { s with rdr := r' } hl
        | .ok (vs, s') => simp
    · simp

theorem decodeEventString_encode (size : Nat) (hsz : size < 2 ^ 64)
    (rest : List Nat) (s : DState)
    (hdata : s.rdr.data = encodeUleb size ++ rest) :
    (maxMakeSize < size → decodeEventString s = .error .allocLimit) ∧
    (size ≤ maxMakeSize → size ≤ rest.length →
      decodeEventString s = .ok (rest.take size,
        { s with rdr :=
            ⟨rest.drop size, s.rdr.off + (encodeUleb size).length + size⟩ })) := by
  have hu := decodeUleb_encode size hsz rest s.rdr hdata
  constructor
  · intro hbig
    unfold decodeEventString
    rw [hu]
    simp only []
    rw [if_pos hbig]
  · intro hle hlen
    unfold decodeEventString
    rw [hu]
    simp only []
    rw [if_neg (by omega)]
    unfold Rdr.readFull
    simp only []
    rw [if_neg (by simp; omega)]

theorem decodeEventArgs_bound (v : Nat) (hv : v < 2 ^ 64) (rest : List Nat)
    (s : DState) (hdata : s.rdr.data = encodeUleb v ++ rest) :
    (maxMakeSize < v → decodeEventArgs s = .error .allocLimit) ∧
    (v ≤ maxMakeSize → decodeEventArgs s ≠ .error .allocLimit) := by
  have hu := decodeUleb_encode v hv rest s.rdr hdata
  constructor
  · intro hbig
    unfold decodeEventArgs
    rw [hu]
    simp only []
    rw [if_pos hbig]
  · intro hle
    unfold decodeEventArgs
    rw [hu]
    simp only []
    rw [if_neg (by omega)]
    exact decodeEventArgsLoop_no_alloc _ _ _

theorem traceAddStack_not_sizeLimit (tr : Trace) (id : Nat)
    (stk : List FrameV) : (traceAddStack tr id stk).1 ≠ some .stackSizeLimit := by
  unfold traceAddStack
  split_ifs <;> simp

theorem traceVisitStack_bound (tr : Trace) (evt : Ev) (id n : Nat)
    (frames : List Nat) (htyp : evt.typ = evStack)
    (hargs : evt.args = id :: n :: frames) (hid : id ≠ 0) :
    (maxStackSize < n → traceVisitStack tr evt = (some .stackSizeLimit, tr)) ∧
    (n ≤ maxStackSize → (traceVisitStack tr evt).1 ≠ some .stackSizeLimit) := by
  have hva : validateArgCount evt 2 (-1) = none := by
    unfold validateArgCount
    rw [if_neg (by simp [hargs]), if_neg (by simp)]
  have hg0 : evt.args.getD 0 0 = id := by rw [hargs]; rfl
  have hg1 : evt.args.getD 1 0 = n := by rw [hargs]; rfl
  constructor
  · intro hbig
    unfold traceVisitStack
    rw [if_neg (by simp [htyp]), hva]
    simp only []
    rw [hg0, hg1, if_neg hid, if_pos hbig]
  · intro hle
    unfold traceVisitStack
    rw [if_neg (by simp [htyp]), hva]
    simp only []
    rw [hg0, hg1, if_neg hid, if_neg (by omega)]
    split_ifs
    · unfold traceVisitStackSize4
      split_ifs
      · simp
      · exact traceAddStack_not_sizeLimit _ _ _
    · unfold traceVisitStackSize1
      split_ifs
      · simp
      · exact traceAddStack_not_sizeLimit _ _ _

/-- C7.  The three cited size guards: a declared `String` payload length
above `maxMakeSize = 10^6` is rejected with the allocation-limit error while
a length within the bound (with enough bytes available) is accepted and
read in full; a declared argument-body length above `10^6` is rejected with
the allocation-limit error and one within the bound is never rejected with
it; a `Stack` event declaring more than `maxStackSize = 10^3` frames is
rejected with the size-limit error and one within the bound is never
rejected with it. -/
theorem c7_oversize_bounds :
    (∀ (size : Nat) (rest : List Nat) (s : DState), size < 2 ^ 64 →
      s.rdr.data = encodeUleb size ++ rest →
      (maxMakeSize < size → decodeEventString s = .error .allocLimit) ∧
      (size ≤ maxMakeSize → size ≤ rest.length →
        decodeEventString s = .ok (rest.take size,
          { s with rdr :=
              ⟨rest.drop size,
                s.rdr.off + (encodeUleb size).length + size⟩ }))) ∧
    (∀ (v : Nat) (rest : List Nat) (s : DState), v < 2 ^ 64 →
      s.rdr.data = encodeUleb v ++ rest →
      (maxMakeSize < v → decodeEventArgs s = .error .allocLimit) ∧
      (v ≤ maxMakeSize → decodeEventArgs s ≠ .error .allocLimit)) ∧
    (∀ (tr : Trace) (evt : Ev) (id n : Nat) (frames : List Nat),
      evt.typ = evStack → evt.args = id :: n :: frames → id ≠ 0 →
      (maxStackSize < n →
        traceVisitStack tr evt = (some .stackSizeLimit, tr)) ∧
      (n ≤ maxStackSize →
        (traceVisitStack tr evt).1 ≠ some .stackSizeLimit)) :=
  ⟨fun size rest s hsz hdata => decodeEventString_encode size hsz rest s hdata,
   fun v rest s hv hdata => decodeEventArgs_bound v hv rest s hdata,
   fun tr evt id n frames htyp hargs hid =>
     traceVisitStack_bound tr evt id n frames htyp hargs hid⟩

/-- Witness for C7: a 2-byte payload within the bound is read in full; the
length `10^6 + 1` is rejected with the allocation-limit error; a `Stack`
event declaring 1001 frames is rejected with the size-limit error, and one
declaring 1 frame is not. -/
theorem c7_oversize_bounds_witness :
    decodeEventString ⟨5, 0, ⟨[2, 9, 9], 0⟩⟩ = .ok ([9, 9], ⟨5, 0, ⟨[], 3⟩⟩) ∧
    decodeEventString ⟨5, 0, ⟨encodeUleb 1000001, 0⟩⟩ =
      .error .allocLimit ∧
    traceVisitStack (newTrace 4) ⟨evStack, [7, 1001], [], 0⟩ =
      (some .stackSizeLimit, newTrace 4) ∧
    (traceVisitStack (newTrace 4) ⟨evStack, [7, 1, 8, 9, 10, 11], [], 0⟩).1 ≠
      some .stackSizeLimit := by
  refine ⟨?_, ?_, ?_, ?_⟩
  · have h := (c7_oversize_bounds.1 2 [9, 9] ⟨5, 0, ⟨[2, 9, 9], 0⟩⟩
      (by norm_num) (by decide)).2 (by norm_num [maxMakeSize]) (by norm_num)
    simpa using h
  · exact (c7_oversize_bounds.1 1000001 [] ⟨5, 0, ⟨encodeUleb 1000001, 0⟩⟩
      (by norm_num) (by simp)).1 (by norm_num [maxMakeSize])
  · exact (c7_oversize_bounds.2.2 (newTrace 4) ⟨evStack, [7, 1001], [], 0⟩
      7 1001 [] rfl rfl (by norm_num)).1 (by norm_num [maxStackSize])
  · exact (c7_oversize_bounds.2.2 (newTrace 4)
      ⟨evStack, [7, 1, 8, 9, 10, 11], [], 0⟩ 7 1 [8, 9, 10, 11] rfl rfl
      (by norm_num)).2 (by norm_num [maxStackSize])

theorem decodeEventInlineLoop_encode :
    ∀ (args : List Nat) (rest : List Nat) (s : DState),
      (∀ a ∈ args, a < 2 ^ 64) →
      s.rdr.data = (args.map encodeUleb).flatten ++ rest →
      decodeEventInlineLoop args.length s =
        .ok (args, { s with rdr :=
          ⟨rest, s.rdr.off + ((args.map encodeUleb).flatten).length⟩ }) := by
  intro args
  induction args with
  | nil =>
    intro rest s _ hdata
    have hr : rest = s.rdr.data := by simpa using hdata.symm
    subst hr
    simp [decodeEventInlineLoop]
  | cons a as ih =>
    intro rest s hbound hdata
    have ha : a < 2 ^ 64 := hbound a (by simp)
    have hu := decodeUleb_encode a ha ((as.map encodeUleb).flatten ++ rest)
      s.rdr (by simpa [List.append_assoc] using hdata)
    have hrec := ih rest
      { s with rdr := ⟨(as.map encodeUleb).flatten ++ rest,
          s.rdr.off + (encodeUleb a).length⟩ }
      (fun x hx => hbound x (by simp [hx])) rfl
    simp only [List.length_cons, decodeEventInlineLoop, hu]
    rw [hrec]
    simp [Nat.add_assoc]

theorem decodeEventArgsLoop_encode :
    ∀ (args : List Nat) (fuel untilOff : Nat) (rest : List Nat) (s : DState),
      (∀ a ∈ args, a < 2 ^ 64) →
      s.rdr.data = (args.map encodeUleb).flatten ++ rest →
      ((args.map encodeUleb).flatten).length ≤ fuel →
      untilOff = s.rdr.off + ((args.map encodeUleb).flatten).length →
      decodeEventArgsLoop fuel untilOff s =
        .ok (args, { s with rdr := ⟨rest, untilOff⟩ }) := by
  intro args
  induction args with
  | nil =>
    intro fuel untilOff rest s _ hdata _ huntil
    have hr : rest = s.rdr.data := by simpa using hdata.symm
    subst hr
    simp only [List.map_nil, List.flatten_nil, List.length_nil,
      Nat.add_zero] at huntil
    subst huntil
    unfold decodeEventArgsLoop
    rw [if_neg (by omega)]
  | cons a as ih =>
    intro fuel untilOff rest s hbound hdata hfuel huntil
    have ha : a < 2 ^ 64 := hbound a (by simp)
    have hpos := encodeUleb_length_pos a
    have hu := decodeUleb_encode a ha ((as.map encodeUleb).flatten ++ rest)
      s.rdr (by simpa [List.append_assoc] using hdata)
    obtain ⟨f, rfl⟩ : ∃ f, fuel = f + 1 := by
      refine ⟨fuel - 1, ?_⟩
      simp [List.length_append] at hfuel
      omega
    have hrec := ih f untilOff rest
      { s with rdr := ⟨(as.map encodeUleb).flatten ++ rest,
          s.rdr.off + (encodeUleb a).length⟩ }
      (fun x hx => hbound x (by simp [hx])) rfl
      (by simp [List.length_append] at hfuel ⊢; omega)
      (by simp [List.length_append] at huntil ⊢; omega)
    unfold decodeEventArgsLoop
    rw [if_pos (by simp [List.length_append] at huntil; omega)]
    simp only [hu]
    rw [hrec]

theorem tag_arity_bits (k : Nat) (hk : k ≤ 3) :
    ((k % 256) <<< 6) % 256 = k * 64 := by
  rw [Nat.shiftLeft_eq, Nat.mod_eq_of_lt (show k < 256 by omega)]
  have h64 : (2 : Nat) ^ 6 = 64 := by norm_num
  rw [h64]
  omega

theorem decodeEventType_tag (t k : Nat) (ht : t < 64) (_hk : k ≤ 3)
    (hvalid : typValidEvent t) (tail : List Nat) (s : DState)
    (hdata : s.rdr.data = (t ||| k * 64) :: tail) :
    decodeEventType s = .ok (t, k + 1, { s with rdr := ⟨tail, s.rdr.off + 1⟩ }) := by
  have htag : t ||| k * 64 = 64 * k + t := by
    rw [Nat.or_comm]
    have h1 : k * 64 = 2 ^ 6 * k := by ring
    have h2 := (Nat.mul_add_lt_is_or (i := 6) (b := t) (by simpa using ht) k).symm
    rw [h1, ← h2]
  have hread : s.rdr.readByte = .ok (t ||| k * 64, ⟨tail, s.rdr.off + 1⟩) := by
    unfold Rdr.readByte
    rw [hdata]
  have h1 : (((t ||| k * 64) <<< 2) % 256) >>> 2 = t := by
    rw [htag, Nat.shiftLeft_eq, Nat.shiftRight_eq_div_pow]
    have e4 : (2 : Nat) ^ 2 = 4 := by norm_num
    rw [e4]
    omega
  have h2 : (t ||| k * 64) >>> 6 + 1 = k + 1 := by
    rw [htag, Nat.shiftRight_eq_div_pow]
    have e64 : (2 : Nat) ^ 6 = 64 := by norm_num
    rw [e64]
    omega
  unfold decodeEventType
  simp only [hread, h1, h2]
  rw [if_pos hvalid]

theorem typValidEvent_bounds (t : Nat) (h : typValidEvent t) :
    0 < t ∧ t < 45 := by
  simpa [typValidEvent, evCountEvent] using h

theorem typSince_le_four : ∀ t, t < 45 → typSinceEvent t ≤ 4 := by decide

/-- C1 (amended).  Encoding an event with the part_005 encoder and decoding
the output with a latest-revision T2 decoder state reproduces the type,
argument vector and data bytes, with only the offset metadata differing —
provided the event is valid for the wire format: valid type, non-empty
args, data empty unless the type is `String`, a `String` event carrying
exactly one argument (the encoder emits only `args[0]`) and a payload
within `maxMakeSize`, and, for events with four or more arguments, an
encoded argument body within `maxMakeSize`. -/
theorem c1_roundtrip_amended (e : Ev) (rest : List Nat) (off : Nat)
    (hvalid : typValidEvent e.typ)
    (hne : e.args ≠ [])
    (hbound : ∀ a ∈ e.args, a < 2 ^ 64)
    (hstr : e.typ = evString → e.args.length = 1 ∧ e.data.length ≤ maxMakeSize)
    (hnostr : e.typ ≠ evString → e.data = [])
    (hbig : 4 ≤ e.args.length →
      ((e.args.map encodeUleb).flatten).length ≤ maxMakeSize) :
    ∃ bytes, encodeEvent e = .ok bytes ∧
      decodeEvent ⟨eventLatest, 0, ⟨bytes ++ rest, off⟩⟩ ⟨0, [], [], 0⟩ =
        .ok (⟨e.typ, e.args, e.data, off⟩,
          ⟨eventLatest, 0, ⟨rest, off + bytes.length⟩⟩) := by
  obtain ⟨htpos, ht45⟩ := typValidEvent_bounds e.typ hvalid
  have ht64 : e.typ < 64 := by omega
  have hsince : ¬ (typSinceEvent e.typ > eventLatest) := by
    have := typSince_le_four e.typ ht45
    simp only [eventLatest]
    omega
  have hlen1 : 1 ≤ e.args.length := List.length_pos.mpr hne
  by_cases hs : e.typ = evString
  · obtain ⟨hl1, hdlen⟩ := hstr hs
    obtain ⟨id, hargs⟩ := List.length_eq_one.mp hl1
    have hid : id < 2 ^ 64 := hbound id (by rw [hargs]; simp)
    refine ⟨e.typ :: (encodeUleb id ++ encodeUleb e.data.length ++ e.data),
      ?_, ?_⟩
    · unfold encodeEvent encodeEventString
      rw [if_neg (by simp [hvalid]), if_pos (by simp [hs]),
        if_neg (by rw [hargs]; simp), hargs]
      rfl
    · have htype := decodeEventType_tag e.typ 0 ht64 (by norm_num) hvalid
        ((encodeUleb id ++ encodeUleb e.data.length ++ e.data) ++ rest)
        ⟨eventLatest, 0,
          ⟨(e.typ :: (encodeUleb id ++ encodeUleb e.data.length ++ e.data)) ++
            rest, off⟩⟩
        (by simp)
      unfold decodeEvent
      simp only [htype]
      rw [if_neg hsince]
      unfold decodeEventData
      rw [if_pos (by simp [hs])]
      unfold decodeEventInline
      rw [if_neg (by norm_num [maxMakeSize])]
      have hloop := decodeEventInlineLoop_encode [id]
        (encodeUleb e.data.length ++ (e.data ++ rest))
        ⟨eventLatest, 0,
          ⟨(encodeUleb id ++ encodeUleb e.data.length ++ e.data) ++ rest,
            off + 1⟩⟩
        (by intro x hx; simp at hx; subst hx; exact hid)
        (by simp [List.append_assoc])
      rw [show ([id] : List Nat).length = 1 from rfl] at hloop
      simp only [hloop]
      have hstring := (decodeEventString_encode e.data.length
        (by norm_num [maxMakeSize] at hdlen; omega) (e.data ++ rest)
        ⟨eventLatest, 0,
          ⟨encodeUleb e.data.length ++ (e.data ++ rest),
            off + 1 + (([id].map encodeUleb).flatten).length⟩⟩
        rfl).2 hdlen (by simp)
      rw [List.take_left, List.drop_left] at hstring
      simp only [hstring]
      simp only [Except.ok.injEq, Prod.mk.injEq, Ev.mk.injEq,
        DState.mk.injEq, Rdr.mk.injEq, List.length_append, List.length_cons,
        hargs, and_true, true_and, Nat.add_sub_cancel, List.map_cons,
        List.map_nil, List.flatten_cons, List.flatten_nil, List.append_nil]
      omega
  · have hdata0 : e.data = [] := hnostr hs
    by_cases hlt : e.args.length < 4
    · refine ⟨(e.typ ||| (((e.args.length - 1) % 256) <<< 6) % 256) ::
        (e.args.map encodeUleb).flatten, ?_, ?_⟩
      · unfold encodeEvent encodeEventInline
        rw [if_neg (by simp [hvalid]), if_neg (by simp [hs]), if_pos hlt,
          if_neg (by omega)]
      · have htagbits : ((((e.args.length - 1) % 256) <<< 6) % 256) =
            (e.args.length - 1) * 64 := tag_arity_bits _ (by omega)
        have htype := decodeEventType_tag e.typ (e.args.length - 1) ht64
          (by omega) hvalid ((e.args.map encodeUleb).flatten ++ rest)
          ⟨eventLatest, 0,
            ⟨((e.typ ||| (((e.args.length - 1) % 256) <<< 6) % 256) ::
              (e.args.map encodeUleb).flatten) ++ rest, off⟩⟩
          (by rw [htagbits]; simp)
        have hsucc : e.args.length - 1 + 1 = e.args.length := by omega
        unfold decodeEvent
        simp only [htype, hsucc]
        rw [if_neg hsince]
        unfold decodeEventData
        rw [if_neg (by simp [hs]), if_pos hlt]
        unfold decodeEventInline
        simp only [Nat.add_zero]
        rw [if_neg (by simp [maxMakeSize]; omega)]
        have hloop := decodeEventInlineLoop_encode e.args rest
          ⟨eventLatest, 0, ⟨(e.args.map encodeUleb).flatten ++ rest, off + 1⟩⟩
          hbound rfl
        rw [hloop]
        simp only [Except.ok.injEq, Prod.mk.injEq, Ev.mk.injEq,
          DState.mk.injEq, Rdr.mk.injEq, List.length_append, List.length_cons,
          hdata0, and_true, true_and, Nat.add_sub_cancel]
        omega
    · have hlen4 : 4 ≤ e.args.length := by omega
      have hbody := hbig hlen4
      refine ⟨(e.typ ||| (3 <<< 6) % 256) ::
        (encodeUleb ((e.args.map encodeUleb).flatten).length ++
          (e.args.map encodeUleb).flatten), ?_, ?_⟩
      · unfold encodeEvent encodeEventArgs
        rw [if_neg (by simp [hvalid]), if_neg (by simp [hs]), if_neg hlt,
          if_neg (by omega)]
      · have htag3 : ((3 : Nat) <<< 6) % 256 = 3 * 64 := by decide
        have htype := decodeEventType_tag e.typ 3 ht64 (by norm_num) hvalid
          ((encodeUleb ((e.args.map encodeUleb).flatten).length ++
            (e.args.map encodeUleb).flatten) ++ rest)
          ⟨eventLatest, 0,
            ⟨((e.typ ||| (3 <<< 6) % 256) ::
              (encodeUleb ((e.args.map encodeUleb).flatten).length ++
                (e.args.map encodeUleb).flatten)) ++ rest, off⟩⟩
          (by rw [htag3]; simp)
        unfold decodeEvent
        simp only [htype]
        rw [if_neg hsince]
        unfold decodeEventData
        rw [if_neg (by simp [hs]), if_neg (by norm_num)]
        unfold decodeEventArgs
        have hu := decodeUleb_encode ((e.args.map encodeUleb).flatten).length
          (by have h := hbody; unfold maxMakeSize at h; omega)
          ((e.args.map encodeUleb).flatten ++ rest)
          (⟨encodeUleb ((e.args.map encodeUleb).flatten).length ++
              (e.args.map encodeUleb).flatten ++ rest, off + 1⟩ : Rdr)
          (by simp [List.append_assoc])
        simp only [hu]
        rw [if_neg (by omega)]
        have hloop := decodeEventArgsLoop_encode e.args
          ((e.args.map encodeUleb).flatten).length
          (off + 1 +
            (encodeUleb ((e.args.map encodeUleb).flatten).length).length +
            ((e.args.map encodeUleb).flatten).length)
          rest
          ⟨eventLatest, 0,
            ⟨(e.args.map encodeUleb).flatten ++ rest,
              off + 1 +
                (encodeUleb ((e.args.map encodeUleb).flatten).length).length⟩⟩
          hbound rfl (le_refl _) rfl
        rw [hloop]
        simp only [Except.ok.injEq, Prod.mk.injEq, Ev.mk.injEq,
          DState.mk.injEq, Rdr.mk.injEq, List.length_append, List.length_cons,
          hdata0, and_true, true_and, Nat.add_sub_cancel]
        omega

/-- C1 counterexample.  A `String` event with two arguments is valid in the
claim's sense (valid type, non-empty args, data allowed for `String`), but
the encoder emits only `args[0]`, so decoding its output yields the
argument vector `[1]`, not `[1, 2]`: encode-then-decode does not reproduce
the argument vector. -/
theorem c1_string_two_args_not_identity :
    typValidEvent evString = true ∧
    encodeEvent ⟨evString, [1, 2], [], 0⟩ = .ok [37, 1, 0] ∧
    decodeEvent ⟨eventLatest, 0, ⟨[37, 1, 0], 0⟩⟩ ⟨0, [], [], 0⟩ =
      .ok (⟨evString, [1], [], 0⟩, ⟨eventLatest, 0, ⟨[], 3⟩⟩) ∧
    ([1] : List Nat) ≠ [1, 2] := by decide

/-- Witness for the amended C1 at the one-argument `ProcStop` event of the
spec's scenario 2. -/
theorem c1_roundtrip_amended_witness :
    ∃ bytes, encodeEvent ⟨6, [128], [], 9⟩ = .ok bytes ∧
      decodeEvent ⟨eventLatest, 0, ⟨bytes ++ [], 5⟩⟩ ⟨0, [], [], 0⟩ =
        .ok (⟨6, [128], [], 5⟩, ⟨eventLatest, 0, ⟨[], 5 + bytes.length⟩⟩) :=
  c1_roundtrip_amended ⟨6, [128], [], 9⟩ [] 5 (by decide) (by decide)
    (by decide) (by decide) (by decide) (by decide)
